import Mathlib

/-!
Shallow embedding of the PainScript virtual processor (src/machine.py and
src/isa.py) and proofs settling the frozen claims about it.

Machine integers are modelled as `Int` (Python integers are unbounded).
Exceptions are modelled by `Except Abort`: `Abort.stop` is `StopIteration`
(HALT and input exhaustion, caught by the simulation driver) and `Abort.err`
is every other uncaught Python exception (AssertionError, IndexError,
TypeError, KeyError, ZeroDivisionError, json.JSONDecodeError, NameError).
-/

namespace PainScript

/-- The closed opcode enumeration of src/isa.py (class Opcode). -/
inductive Opcode
  | WR_DIR | WR_NDR | READ_DIR | READ_NDR
  | PRINT
  | BEGIN | NOP
  | MOD | PLUS | MINUS | MULT | DIV | POW | LT | NEG | INV
  | DUP | OVER | ROT | SWAP
  | PUSH | DROP
  | JMP | JNT
  | HALT
  deriving DecidableEq

/-- The string value of each enumeration member (src/isa.py lines 7..38);
`Opcode` is a `str` enum, so a member compares equal to this string. -/
def Opcode.value : Opcode → String
  | .WR_DIR => "WRITE_DIR"
  | .WR_NDR => "WRITE_NDR"
  | .READ_DIR => "READ_DIR"
  | .READ_NDR => "READ_NDR"
  | .PRINT => "PRINT"
  | .BEGIN => "BEGIN"
  | .NOP => "NOP"
  | .MOD => "MOD"
  | .PLUS => "PLUS"
  | .MINUS => "MINUS"
  | .MULT => "MULT"
  | .DIV => "DIV"
  | .POW => "POW"
  | .LT => "LT"
  | .NEG => "NEG"
  | .INV => "INVERT"
  | .DUP => "DUP"
  | .OVER => "OVER"
  | .ROT => "ROT"
  | .SWAP => "SWAP"
  | .PUSH => "PUSH"
  | .DROP => "DROP"
  | .JMP => "JMP"
  | .JNT => "JNT"
  | .HALT => "HALT"

/-- `Opcode(s)` on a string: the member with that value, `ValueError`
(`none`) otherwise (used by read_code's rehydration loop). -/
def Opcode.ofValue (s : String) : Option Opcode :=
  if s = "WRITE_DIR" then some .WR_DIR
  else if s = "WRITE_NDR" then some .WR_NDR
  else if s = "READ_DIR" then some .READ_DIR
  else if s = "READ_NDR" then some .READ_NDR
  else if s = "PRINT" then some .PRINT
  else if s = "BEGIN" then some .BEGIN
  else if s = "NOP" then some .NOP
  else if s = "MOD" then some .MOD
  else if s = "PLUS" then some .PLUS
  else if s = "MINUS" then some .MINUS
  else if s = "MULT" then some .MULT
  else if s = "DIV" then some .DIV
  else if s = "POW" then some .POW
  else if s = "LT" then some .LT
  else if s = "NEG" then some .NEG
  else if s = "INVERT" then some .INV
  else if s = "DUP" then some .DUP
  else if s = "OVER" then some .OVER
  else if s = "ROT" then some .ROT
  else if s = "SWAP" then some .SWAP
  else if s = "PUSH" then some .PUSH
  else if s = "DROP" then some .DROP
  else if s = "JMP" then some .JMP
  else if s = "JNT" then some .JNT
  else if s = "HALT" then some .HALT
  else none

/-- src/isa.py `Term` namedtuple `(line_num, com, arg)`: provenance record
attached to an instruction; never read by the execution semantics. -/
structure Term where
  line_num : Int
  com : String
  arg : String
  deriving DecidableEq

/-- An instruction argument as the machine consumes it.
Modelled from the spec: `translator.is_number` (imported by machine.py) is
not under src/; per spec section 6 an argument is an integer literal, a
single-character literal, or a jump target index, so `micro_push` pushes
the number itself or the character code. -/
inductive Arg
  | num (n : Int)
  | ch (c : Char)
  deriving DecidableEq

/-- An instruction dict `\x7b opcode, optional arg, optional term \x7d`. -/
structure Instr where
  opcode : Opcode
  arg : Option Arg
  term : Option Term
  deriving DecidableEq

/-- A word of the unified memory list built by Memory.__init__:
`data + [0]*k + program` mixes integer data words and instruction dicts. -/
inductive Cell
  | int (v : Int)
  | instr (i : Instr)
  deriving DecidableEq

/-- How an execution step can abort: `stop` is `StopIteration`
(micro_halt, or a read from an empty input buffer); `err` is every other
uncaught exception (assertion failures, bad indexing, bad types). -/
inductive Abort
  | stop
  | err
  deriving DecidableEq

/-- The whole machine state of one simulation run: the fields of
`Memory`, `DataPath` and `ControlUnit` of src/machine.py, flattened
(the three Python objects alias each other, so one record is the
faithful state).  `stack_size` is `DataPath.memory_size` (renamed to
avoid clashing with `Memory.memory_size`); `ticks` is
`ControlUnit._tick`. -/
structure Machine where
  -- Memory (src/machine.py lines 22..33)
  data_address : Int
  memory_size : Nat
  data : List Cell
  program_start : Nat
  program_len : Nat
  input_buffer : List Char
  output_buffer : List String
  -- DataPath (lines 83..90)
  stack : List Int
  head : Int
  stack_size : Nat
  alu : Int
  -- ControlUnit (lines 156..160)
  pc : Int
  ticks : Nat
  deriving DecidableEq

/-- Memory.latch_data_address (lines 35..38): assert 0 <= val <= memory_size. -/
def latch_data_address (m : Machine) (val : Int) : Except Abort Machine :=
  if 0 ≤ val ∧ val ≤ (m.memory_size : Int) then
    .ok { m with data_address := val }
  else .error .err

/-- Memory.read (lines 40..54).  Reading address 1 is an assertion failure;
address 0 pops the input queue (StopIteration when it is empty) and latches
the character code at cell 0; any other address returns the stored word.
A program cell read into the integer datapath is modelled as an abort: the
Python dict object would fail at its first arithmetic or addressing use. -/
def mem_read (m : Machine) : Except Abort (Int × Machine) :=
  if m.data_address = 1 then .error .err
  else if m.data_address ≠ 0 then
    match m.data.get? m.data_address.toNat with
    | some (Cell.int v) => .ok (v, m)
    | some (Cell.instr _) => .error .err
    | none => .error .err
  else
    match m.input_buffer with
    | [] => .error .stop
    | c :: rest =>
        .ok ((c.toNat : Int),
             { m with data := m.data.set 0 (Cell.int (c.toNat : Int)),
                      input_buffer := rest })

/-- Memory.write (lines 56..70): address 0 is an assertion failure; address 1
stores the raw value at cell 1 and appends an output token (the character
for 0 <= value <= 127, the decimal string otherwise); any other address
stores the value (IndexError beyond the list). -/
def mem_write (m : Machine) (value : Int) : Except Abort Machine :=
  if m.data_address = 0 then .error .err
  else if m.data_address ≠ 1 then
    if m.data_address.toNat < m.data.length then
      .ok { m with data := m.data.set m.data_address.toNat (Cell.int value) }
    else .error .err
  else
    if 1 < m.data.length then
      let m := { m with data := m.data.set 1 (Cell.int value) }
      let tok : String :=
        if 0 ≤ value ∧ value ≤ 127 then String.singleton (Char.ofNat value.toNat)
        else toString value
      .ok { m with output_buffer := m.output_buffer ++ [tok] }
    else .error .err

/-- Memory.get_instruction (lines 72..79): assert pc < program_len, translate
by program_start, assert 128 <= translated <= memory_size, index the list. -/
def get_instruction (m : Machine) (pc : Int) : Except Abort Cell :=
  if pc < (m.program_len : Int) then
    let pc' := pc + (m.program_start : Int)
    if 128 ≤ pc' ∧ pc' ≤ (m.memory_size : Int) then
      match m.data.get? pc'.toNat with
      | some c => .ok c
      | none => .error .err
    else .error .err
  else .error .err

/-- DataPath.get_tos (lines 92..97): assert 0 <= offset <= 3 and
offset < head, then return stack[head - offset - 1]. -/
def get_tos (m : Machine) (offset : Int) : Except Abort Int :=
  if 0 ≤ offset ∧ offset ≤ 3 then
    if offset < m.head then
      match m.stack.get? (m.head - offset - 1).toNat with
      | some v => .ok v
      | none => .error .err
    else .error .err
  else .error .err

/-- DataPath.latch_head (lines 99..104): sel_val must be one of
-1, -3, 1, -2 and the new head must satisfy 0 <= head < stack_size. -/
def latch_head (m : Machine) (sel_val : Int) : Except Abort Machine :=
  if sel_val = -1 ∨ sel_val = -3 ∨ sel_val = 1 ∨ sel_val = -2 then
    if 0 ≤ m.head + sel_val ∧ m.head + sel_val < (m.stack_size : Int) then
      .ok { m with head := m.head + sel_val }
    else .error .err
  else .error .err

/-- DataPath.push (lines 106..108): stack[head] := val, then latch_head(1).
The head is never negative in any reachable state (latch_head keeps it in
range), so the Python negative-index wraparound is modelled as an abort. -/
def push (m : Machine) (val : Int) : Except Abort Machine :=
  if 0 ≤ m.head ∧ m.head.toNat < m.stack.length then
    latch_head { m with stack := m.stack.set m.head.toNat val } 1
  else .error .err

/-- DataPath.oe_stack (lines 110..118): assert head >= 1, read top(offset),
add 1 when the selector is READ_NDR or WR_NDR (pointer auto-increment). -/
def oe_stack (m : Machine) (offset : Int) (selector : Option Opcode) :
    Except Abort Int :=
  if 1 ≤ m.head then
    match get_tos m offset with
    | .ok val =>
        if selector = some Opcode.READ_NDR ∨ selector = some Opcode.WR_NDR then
          .ok (val + 1)
        else .ok val
    | .error e => .error e
  else .error .err

/-- DataPath.is_true (lines 120..123): -1 when the top is -1 else 0,
then pop one. -/
def is_true (m : Machine) : Except Abort (Int × Machine) :=
  match get_tos m 0 with
  | .error e => .error e
  | .ok t =>
    match latch_head m (-1) with
    | .error e => .error e
    | .ok m' => .ok (if t = -1 then -1 else 0, m')

/-- DataPath.latch_alu (lines 125..151).  The chain of `if` tests compares
the selector against at most one distinct opcode value, so it is a match.
DIV has no case: the accumulator is left unchanged.  Python's `%` is
floor modulo (`Int.fmod`) and raises ZeroDivisionError on a zero divisor.
`**` with a negative exponent leaves the integer domain (a Python float,
or ZeroDivisionError for base 0): modelled as an abort. -/
def latch_alu (m : Machine) (op : Opcode) : Except Abort Machine :=
  match op with
  | Opcode.READ_NDR => do
      let t1 ← get_tos m 1
      pure { m with alu := t1 + 1 }
  | Opcode.MOD => do
      let t1 ← get_tos m 1
      let t0 ← get_tos m 0
      if t0 = 0 then Except.error Abort.err
      else pure { m with alu := Int.fmod t1 t0 }
  | Opcode.PLUS => do
      let t1 ← get_tos m 1
      let t0 ← get_tos m 0
      pure { m with alu := t1 + t0 }
  | Opcode.MULT => do
      let t1 ← get_tos m 1
      let t0 ← get_tos m 0
      pure { m with alu := t1 * t0 }
  | Opcode.POW => do
      let t0 ← get_tos m 0
      let t1 ← get_tos m 1
      if 0 ≤ t1 then pure { m with alu := t0 ^ t1.toNat }
      else Except.error Abort.err
  | Opcode.LT => do
      let t1 ← get_tos m 1
      let t0 ← get_tos m 0
      pure { m with alu := if t1 < t0 then -1 else 0 }
  | Opcode.NEG => do
      let t0 ← get_tos m 0
      pure { m with alu := t0 * (-1) }
  | Opcode.INV => do
      let t0 ← get_tos m 0
      pure { m with alu := (t0 + 1) * (-1) }
  | Opcode.JNT => do
      let t0 ← get_tos m 0
      pure { m with alu := if t0 = -1 then -1 else 0 }
  | _ => pure m

/-- ControlUnit.tick (lines 162..164). -/
def tick (m : Machine) : Machine := { m with ticks := m.ticks + 1 }

/-- ControlUnit.latch_pc (lines 169..179): sel_next advances by one;
otherwise the current instruction must be a JMP or JNT carrying an
argument, which becomes the new pc.  A missing argument is a KeyError;
a non-integer target would leave the integer pc model (the Python code
would store the string and crash at the next fetch). -/
def latch_pc (m : Machine) (sel_next : Bool) : Except Abort Machine :=
  if sel_next then .ok { m with pc := m.pc + 1 }
  else
    match get_instruction m m.pc with
    | .error e => .error e
    | .ok (Cell.int _) => .error .err
    | .ok (Cell.instr i) =>
      if i.opcode = Opcode.JMP ∨ i.opcode = Opcode.JNT then
        match i.arg with
        | some (Arg.num n) => .ok { m with pc := n }
        | some (Arg.ch _) => .error .err
        | none => .error .err
      else .error .err

/-- ControlUnit.micro_read_direct (lines 212..222): 2 ticks. -/
def micro_read_direct (m : Machine) (_i : Instr) : Except Abort Machine := do
  let top ← oe_stack m 0 none
  let m ← latch_data_address m top
  let m ← latch_head m (-1)
  let m := tick m
  let (val, m) ← mem_read m
  let m ← push m val
  let m ← latch_pc m true
  pure (tick m)

/-- ControlUnit.micro_read_indirect (lines 224..259): the chained indirect
read with pointer auto-increment write-back; calls tick() seven times. -/
def micro_read_indirect (m : Machine) (i : Instr) : Except Abort Machine := do
  let address ← oe_stack m 0 none
  let m ← latch_data_address m address
  let m := tick m
  let (val, m) ← mem_read m
  let m ← push m val
  let m := tick m
  let address ← oe_stack m 0 none
  let m ← latch_data_address m address
  let m := tick m
  let (val, m) ← mem_read m
  let m ← push m val
  let m := tick m
  let v1 ← get_tos m 0
  let v2 ← get_tos m 1
  let v3 ← get_tos m 2
  let m ← latch_head m (-3)
  let m ← push m v1
  let m ← push m v2
  let m ← push m v3
  let m := tick m
  let address ← oe_stack m 0 none
  let m ← latch_data_address m address
  let m := tick m
  let val ← oe_stack m 1 (some i.opcode)
  let m ← mem_write m val
  let m ← latch_head m (-2)
  let m ← latch_pc m true
  pure (tick m)

/-- ControlUnit.micro_write_direct (lines 261..271): 2 ticks. -/
def micro_write_direct (m : Machine) (_i : Instr) : Except Abort Machine := do
  let address ← get_tos m 0
  let m ← latch_data_address m address
  let m := tick m
  let val ← oe_stack m 1 none
  let m ← mem_write m val
  let m ← latch_head m (-2)
  let m ← latch_pc m true
  pure (tick m)

/-- ControlUnit.micro_write_indirect (lines 273..299): the indirect write
with pointer auto-increment write-back; calls tick() six times. -/
def micro_write_indirect (m : Machine) (i : Instr) : Except Abort Machine := do
  let address ← oe_stack m 0 none
  let m ← latch_data_address m address
  let m := tick m
  let (val, m) ← mem_read m
  let m ← push m val
  let m := tick m
  let address ← oe_stack m 0 none
  let m ← latch_data_address m address
  let m := tick m
  let val ← oe_stack m 2 none
  let m ← mem_write m val
  let m := tick m
  let address ← oe_stack m 1 none
  let m ← latch_data_address m address
  let m := tick m
  let val ← oe_stack m 0 (some i.opcode)
  let m ← mem_write m val
  let m ← latch_head m (-3)
  let m ← latch_pc m true
  pure (tick m)

/-- ControlUnit.micro_jump_if_not_true (lines 301..307): pop the truth
flag (Python truthiness: nonzero is true), advance or branch, 1 tick. -/
def micro_jump_if_not_true (m : Machine) (_i : Instr) : Except Abort Machine := do
  let (res, m) ← is_true m
  let m ← latch_pc m (res != 0)
  pure (tick m)

/-- ControlUnit.micro_halt (lines 309..310): raise StopIteration. -/
def micro_halt (_m : Machine) (_i : Instr) : Except Abort Machine :=
  .error .stop

/-- ControlUnit.micro_no_operation (lines 312..314): pc+1, 1 tick. -/
def micro_no_operation (m : Machine) (_i : Instr) : Except Abort Machine := do
  let m ← latch_pc m true
  pure (tick m)

/-- ControlUnit.micro_alu_operation (lines 316..328): latch the ALU, pop one
operand for NEG and INVERT and two for every other arithmetic opcode, then
push the accumulator; 2 ticks.  (The Python membership test against the set
of the NEG and INVERT value strings behaves as value equality for the str
enum, verified against CPython.) -/
def micro_alu_operation (m : Machine) (i : Instr) : Except Abort Machine := do
  let m ← latch_alu m i.opcode
  let m ← latch_head m
    (if i.opcode = Opcode.NEG ∨ i.opcode = Opcode.INV then -1 else -2)
  let m := tick m
  let m ← push m m.alu
  let m ← latch_pc m true
  pure (tick m)

/-- ControlUnit.micro_rotate (lines 330..342): v1 := top(1), v2 := top(0),
v3 := top(2); pop three; push v1, v2, v3; 1 tick.  The new top is the old
third-from-top. -/
def micro_rotate (m : Machine) (_i : Instr) : Except Abort Machine := do
  let v1 ← get_tos m 1
  let v2 ← get_tos m 0
  let v3 ← get_tos m 2
  let m ← latch_head m (-3)
  let m ← push m v1
  let m ← push m v2
  let m ← push m v3
  let m ← latch_pc m true
  pure (tick m)

/-- ControlUnit.micro_duplicate (lines 344..349). -/
def micro_duplicate (m : Machine) (_i : Instr) : Except Abort Machine := do
  let v ← get_tos m 0
  let m ← push m v
  let m ← latch_pc m true
  pure (tick m)

/-- ControlUnit.micro_over (lines 351..356). -/
def micro_over (m : Machine) (_i : Instr) : Except Abort Machine := do
  let v ← get_tos m 1
  let m ← push m v
  let m ← latch_pc m true
  pure (tick m)

/-- ControlUnit.micro_swap (lines 358..366). -/
def micro_swap (m : Machine) (_i : Instr) : Except Abort Machine := do
  let v1 ← get_tos m 0
  let v2 ← get_tos m 1
  let m ← latch_head m (-2)
  let m ← push m v1
  let m ← push m v2
  let m ← latch_pc m true
  pure (tick m)

/-- ControlUnit.micro_push (lines 368..376): a numeric argument is pushed as
the integer, a character argument as its code; a missing argument is a
KeyError. -/
def micro_push (m : Machine) (i : Instr) : Except Abort Machine := do
  let value ← (match i.arg with
    | some (Arg.num n) => Except.ok n
    | some (Arg.ch c) => Except.ok ((c.toNat : Int))
    | none => Except.error Abort.err : Except Abort Int)
  let m ← push m value
  let m ← latch_pc m true
  pure (tick m)

/-- ControlUnit.micro_drop (lines 378..382). -/
def micro_drop (m : Machine) (_i : Instr) : Except Abort Machine := do
  let m ← latch_head m (-1)
  let m ← latch_pc m true
  pure (tick m)

/-- ControlUnit.micro_jump (lines 384..388): pc := arg, 1 tick.  A missing
argument is a KeyError; a non-integer target leaves the integer pc model. -/
def micro_jump (m : Machine) (i : Instr) : Except Abort Machine :=
  match i.arg with
  | some (Arg.num n) => .ok (tick { m with pc := n })
  | some (Arg.ch _) => .error .err
  | none => .error .err

/-- ControlUnit.execute_micro_operation (lines 181..210): the handler-table
dispatch.  MINUS and PRINT have no entry in the handlers dict, so
`handlers.get(opcode)` returns None and the method falls through, returning
with the machine state untouched (no tick, no pc latch). -/
def execute_micro_operation (m : Machine) (i : Instr) : Except Abort Machine :=
  match i.opcode with
  | Opcode.READ_DIR => micro_read_direct m i
  | Opcode.READ_NDR => micro_read_indirect m i
  | Opcode.WR_DIR => micro_write_direct m i
  | Opcode.WR_NDR => micro_write_indirect m i
  | Opcode.JNT => micro_jump_if_not_true m i
  | Opcode.HALT => micro_halt m i
  | Opcode.BEGIN => micro_no_operation m i
  | Opcode.NOP => micro_no_operation m i
  | Opcode.MOD => micro_alu_operation m i
  | Opcode.PLUS => micro_alu_operation m i
  | Opcode.MULT => micro_alu_operation m i
  | Opcode.LT => micro_alu_operation m i
  | Opcode.DIV => micro_alu_operation m i
  | Opcode.POW => micro_alu_operation m i
  | Opcode.NEG => micro_alu_operation m i
  | Opcode.INV => micro_alu_operation m i
  | Opcode.ROT => micro_rotate m i
  | Opcode.DUP => micro_duplicate m i
  | Opcode.OVER => micro_over m i
  | Opcode.SWAP => micro_swap m i
  | Opcode.PUSH => micro_push m i
  | Opcode.DROP => micro_drop m i
  | Opcode.JMP => micro_jump m i
  | Opcode.MINUS => .ok m
  | Opcode.PRINT => .ok m

/-- ControlUnit.decode_and_execute (lines 390..392): fetch the cell at pc
and dispatch; an integer cell has no "opcode" key (TypeError). -/
def decode_and_execute (m : Machine) : Except Abort Machine :=
  match get_instruction m m.pc with
  | .error e => .error e
  | .ok (Cell.int _) => .error .err
  | .ok (Cell.instr i) => execute_micro_operation m i

/-- The machine built at the top of `simulation` (lines 409..412):
Memory(data_memory_size, code, input_buffer, data) with its two
construction assertions, DataPath(256, memory), ControlUnit(...).
The memory list is `data + [0] * (memory_size - len(program) - len(data))
+ program` (line 29), a Python repeat that is empty when the count is
negative, exactly the truncation of Nat subtraction. -/
def simulation_init (code : List Instr) (data_memory_size : Nat)
    (input_buffer : List Char) (data : List Int) : Except Abort Machine :=
  if 0 < data_memory_size ∧ code.length + 128 < data_memory_size then
    .ok {
      data_address := 0
      memory_size := data_memory_size
      data := data.map Cell.int
        ++ List.replicate (data_memory_size - code.length - data.length) (Cell.int 0)
        ++ code.map Cell.instr
      program_start := data_memory_size - code.length
      program_len := code.length
      input_buffer := input_buffer
      output_buffer := []
      stack := List.replicate 256 0
      head := 0
      stack_size := 256
      alu := 0
      pc := 0
      ticks := 0 }
  else .error .err

/-- The fetch-execute loop of `simulation` (lines 416..425).  The fuel is
`limit - instruct_counter`, which the Python loop decreases by one per
retired instruction until `limit <= instruct_counter` breaks; StopIteration
ends the run normally, any other exception propagates out of `simulation`. -/
def sim_loop : Nat → Machine → Nat → Except Abort (Machine × Nat)
  | 0, m, counter => .ok (m, counter)
  | fuel + 1, m, counter =>
    match decode_and_execute m with
    | .ok m' => sim_loop fuel m' (counter + 1)
    | .error .stop => .ok (m, counter)
    | .error .err => .error .err

/-- `simulation` (lines 409..426): build the machine, run the loop, and
return (output_buffer, instruct_counter, cur_tick()). -/
def simulation (code : List Instr) (data_memory_size : Nat) (limit : Nat)
    (input_buffer : List Char) (data : List Int) :
    Except Abort (List String × Nat × Nat) := do
  let m ← simulation_init code data_memory_size input_buffer data
  let (mf, counter) ← sim_loop limit m 0
  pure (mf.output_buffer, counter, mf.ticks)

/-- Iterating `decode_and_execute`; used to state that the first n executed
instructions all complete successfully. -/
def step_iter : Nat → Machine → Except Abort Machine
  | 0, m => .ok m
  | n + 1, m =>
    match decode_and_execute m with
    | .ok m' => step_iter n m'
    | .error e => .error e

/-- The states a run can reach from its initial machine: the reflexive
transitive closure of successful `decode_and_execute` steps. -/
inductive reachable : Machine → Machine → Prop
  | refl (m : Machine) : reachable m m
  | step {m0 m m' : Machine} :
      reachable m0 m → decode_and_execute m = .ok m' → reachable m0 m'

/-! ### src/isa.py: the serialized program container -/

/-- A JSON value, as `json.loads` produces and `json.dumps` consumes for
the shapes this container uses (no floats, no booleans, no escapes). -/
inductive Json
  | jint (n : Int)
  | jstr (s : String)
  | jarr (xs : List Json)
  | jobj (kvs : List (String × Json))

/-- A double-quote delimited JSON string body (no escape handling: the
container never produces escapes). -/
def parse_str_chars : List Char → Option (String × List Char)
  | [] => none
  | c :: cs =>
    if c = '\x22' then some ("", cs)
    else
      match parse_str_chars cs with
      | some (s, r) => some (String.singleton c ++ s, r)
      | none => none

/-- Skip JSON whitespace. -/
def skip_ws : List Char → List Char
  | [] => []
  | c :: cs =>
    if c = ' ' ∨ c = '\n' ∨ c = '\t' ∨ c = '\r' then skip_ws cs else c :: cs

/-- Decimal digits to a number. -/
def digits_to_nat (ds : List Char) : Nat :=
  ds.foldl (fun a c => a * 10 + (c.toNat - 48)) 0

/-- An integer token (optional minus sign, then digits). -/
def parse_int_tok (input : List Char) : Option (Json × List Char) :=
  match input with
  | '-' :: rest =>
    match List.span Char.isDigit rest with
    | ([], _) => none
    | (ds, r) => some (Json.jint (-(digits_to_nat ds : Int)), r)
  | _ =>
    match List.span Char.isDigit input with
    | ([], _) => none
    | (ds, r) => some (Json.jint ((digits_to_nat ds : Int)), r)

mutual

/-- Recursive-descent `json.loads` for the container's value shapes.
The fuel bounds the recursion; every recursive call consumes input, so
a fuel of one more than the input length is always enough. -/
def parse_json : Nat → List Char → Option (Json × List Char)
  | 0, _ => none
  | fuel + 1, input =>
    match skip_ws input with
    | [] => none
    | c :: cs =>
      if c = '\x22' then
        match parse_str_chars cs with
        | some (s, r) => some (Json.jstr s, r)
        | none => none
      else if c = '[' then
        match skip_ws cs with
        | ']' :: r => some (Json.jarr [], r)
        | r =>
          match parse_arr_items fuel r with
          | some (xs, r2) => some (Json.jarr xs, r2)
          | none => none
      else if c = '\x7b' then
        match skip_ws cs with
        | '\x7d' :: r => some (Json.jobj [], r)
        | r =>
          match parse_obj_items fuel r with
          | some (kvs, r2) => some (Json.jobj kvs, r2)
          | none => none
      else parse_int_tok (c :: cs)

/-- Comma-separated array items up to the closing bracket. -/
def parse_arr_items : Nat → List Char → Option (List Json × List Char)
  | 0, _ => none
  | fuel + 1, input =>
    match parse_json fuel input with
    | none => none
    | some (j, r) =>
      match skip_ws r with
      | ',' :: r2 =>
        match parse_arr_items fuel r2 with
        | some (xs, r3) => some (j :: xs, r3)
        | none => none
      | ']' :: r2 => some ([j], r2)
      | _ => none

/-- Comma-separated key/value members up to the closing brace. -/
def parse_obj_items : Nat → List Char → Option (List (String × Json) × List Char)
  | 0, _ => none
  | fuel + 1, input =>
    match skip_ws input with
    | '\x22' :: cs =>
      match parse_str_chars cs with
      | none => none
      | some (k, r) =>
        match skip_ws r with
        | ':' :: r2 =>
          match parse_json fuel r2 with
          | none => none
          | some (v, r3) =>
            match skip_ws r3 with
            | ',' :: r4 =>
              match parse_obj_items fuel r4 with
              | some (kvs, r5) => some ((k, v) :: kvs, r5)
              | none => none
            | '\x7d' :: r4 => some ([(k, v)], r4)
            | _ => none
        | _ => none
    | _ => none

end

/-- `json.loads`: parse a complete document; anything but trailing
whitespace after the value is a JSONDecodeError (`none`), as is an empty
document. -/
def json_loads_chars (l : List Char) : Option Json :=
  match parse_json (l.length + 1) l with
  | some (j, rest) => if skip_ws rest = [] then some j else none
  | none => none

/-- `json.loads` on a string. -/
def json_loads (s : String) : Option Json := json_loads_chars s.toList

/-- The pattern is a prefix of the text. -/
def starts_with : List Char → List Char → Bool
  | [], _ => true
  | _ :: _, [] => false
  | p :: ps, c :: cs => p = c && starts_with ps cs

/-- Python's `in` on strings: the pattern occurs somewhere in the text. -/
def contains_aux (pat : List Char) : List Char → Bool
  | [] => starts_with pat []
  | l@(_ :: cs) => starts_with pat l || contains_aux pat cs

/-- Python's `str.split(sep)` for a non-empty separator: cut at every
non-overlapping occurrence, scanning left to right.  The fuel is one more
than the text length; every step consumes at least one character. -/
def split_on_aux (sep : List Char) : Nat → List Char → List Char → List (List Char)
  | 0, rest, acc => [acc.reverse ++ rest]
  | fuel + 1, rest, acc =>
    match rest with
    | [] => [acc.reverse]
    | c :: cs =>
      if starts_with sep rest then
        acc.reverse :: split_on_aux sep fuel (rest.drop sep.length) []
      else
        split_on_aux sep fuel cs (c :: acc)

/-- Python's `str.replace`: replace every non-overlapping occurrence,
scanning left to right. -/
def replace_aux (pat repl : List Char) : Nat → List Char → List Char
  | 0, rest => rest
  | fuel + 1, rest =>
    match rest with
    | [] => []
    | c :: cs =>
      if starts_with pat rest then
        repl ++ replace_aux pat repl fuel (rest.drop pat.length)
      else
        c :: replace_aux pat repl fuel cs

/-- A JSON string literal. -/
def json_str (s : String) : String := "\x22" ++ s ++ "\x22"

/-- `json.dumps(data, indent=4)` for the initial data segment, a list of
integers: each element on its own line indented four spaces. -/
def dumps_int_list (xs : List Int) : String :=
  match xs with
  | [] => "[]"
  | _ => "[\n" ++ String.intercalate ",\n" (xs.map (fun n => "    " ++ toString n)) ++ "\n]"

/-- An instruction argument as `json.dumps` renders it: the integer, or the
quoted character. -/
def dumps_arg : Arg → String
  | Arg.num n => toString n
  | Arg.ch c => json_str (String.singleton c)

/-- A Term as `json.dumps(..., indent=4)` renders the namedtuple: a
three-element array nested at the instruction-field level. -/
def dumps_term (t : Term) : String :=
  "[\n            " ++ toString t.line_num ++ ",\n            "
    ++ json_str t.com ++ ",\n            " ++ json_str t.arg ++ "\n        ]"

/-- One instruction dict as `json.dumps(code, indent=4)` renders it.
Modelled from the spec: the translator that builds the instruction dicts is
not under src/; per spec sections 4.1 and 6 an instruction carries its
opcode name, optional argument and optional Term, serialized under the keys
"opcode", "arg" and "term" that read_code looks up. -/
def dumps_instr (i : Instr) : String :=
  "    \x7b\n        " ++ json_str "opcode" ++ ": " ++ json_str i.opcode.value
  ++ (match i.arg with
      | none => ""
      | some a => ",\n        " ++ json_str "arg" ++ ": " ++ dumps_arg a)
  ++ (match i.term with
      | none => ""
      | some t => ",\n        " ++ json_str "term" ++ ": " ++ dumps_term t)
  ++ "\n    \x7d"

/-- `json.dumps(code, indent=4)` for the instruction sequence. -/
def dumps_code (code : List Instr) : String :=
  match code with
  | [] => "[]"
  | _ => "[\n" ++ String.intercalate ",\n" (code.map dumps_instr) ++ "\n]"

/-- `write_code` (src/isa.py lines 45..52): the full text written to the
file — a "data: " prefixed data array plus a newline when the data segment
is non-empty, then the instruction array. -/
def write_code (code : List Instr) (data : List Int) : String :=
  if data.length ≠ 0 then
    "data: " ++ dumps_int_list data ++ "\n" ++ dumps_code code
  else
    dumps_code code

/-- Python's `in` on strings. -/
def str_contains (s pat : String) : Bool :=
  contains_aux pat.toList s.toList

/-- `instr['arg']` kept by read_code: an integer stays an integer, a string
is the one-character literal the machine feeds to `ord` (a longer string is
outside the Arg model and would crash the machine there). -/
def decode_arg : Json → Option Arg
  | Json.jint n => some (Arg.num n)
  | Json.jstr s =>
    match s.toList with
    | [c] => some (Arg.ch c)
    | _ => none
  | _ => none

/-- Term rehydration (isa.py lines 70..72): Term(t[0], t[1], t[2]). -/
def decode_term : Json → Option Term
  | Json.jarr [Json.jint n, Json.jstr c, Json.jstr a] => some ⟨n, c, a⟩
  | _ => none

/-- Dict key lookup. -/
def lookup_key (kvs : List (String × Json)) (k : String) : Option Json :=
  match kvs with
  | [] => none
  | (k', v) :: rest => if k' = k then some v else lookup_key rest k

/-- The rehydration loop body (isa.py lines 68..72): Opcode(instr['opcode'])
(ValueError on an unknown name) and the optional Term. -/
def decode_instr (j : Json) : Option Instr :=
  match j with
  | Json.jobj kvs => do
    let opv ← lookup_key kvs "opcode"
    match opv with
    | Json.jstr s => do
      let op ← Opcode.ofValue s
      let arg ← match lookup_key kvs "arg" with
        | none => some none
        | some a => (decode_arg a).map some
      let term ← match lookup_key kvs "term" with
        | none => some none
        | some t => (decode_term t).map some
      some (⟨op, arg, term⟩ : Instr)
    | _ => none
  | _ => none

/-- The initial data segment: a JSON array of integers. -/
def decode_data : Json → Option (List Int)
  | Json.jarr xs =>
    xs.mapM (fun j => match j with | Json.jint n => some n | _ => none)
  | _ => none

/-- `read_code` (src/isa.py lines 55..73) on the text of the file.
`full = file.read()` consumes the whole file; when the text contains
"data" it is split at the textual bracket boundary and both halves are
parsed; otherwise the code re-reads the already-exhausted handle —
`json.loads(file.read())` parses the empty string and raises
JSONDecodeError — and even apart from that, the local name `data` is never
bound on that path, so `return code, data` would raise NameError. -/
def read_code (content : String) : Except Abort (List Instr × List Int) :=
  let full := content.toList
  if contains_aux "data".toList full then
    let split_content := split_on_aux "]\n[".toList (full.length + 1) full []
    match split_content.get? 0, split_content.get? 1 with
    | some part0, some part1 =>
      let data_part := replace_aux "data: ".toList [] (part0.length + 1) part0 ++ "]".toList
      let code_part := "[".toList ++ part1
      match json_loads_chars data_part, json_loads_chars code_part with
      | some dj, some cj =>
        match decode_data dj,
              (match cj with
               | Json.jarr items => items.mapM decode_instr
               | _ => none) with
        | some data, some code => .ok (code, data)
        | _, _ => .error .err
      | _, _ => .error .err
    | _, _ => .error .err
  else
    match json_loads "" with
    | some _ => .error .err
    | none => .error .err

/-! ### Inversion lemmas for the primitive operations -/

theorem bind_ok {α β : Type} {x : Except Abort α} {f : α → Except Abort β} {b : β}
    (h : x >>= f = .ok b) : ∃ a, x = .ok a ∧ f a = .ok b := by
  cases x with
  | error e => simp [Bind.bind, Except.bind] at h
  | ok a => exact ⟨a, rfl, by simpa [Bind.bind, Except.bind] using h⟩

theorem pure_ok {α : Type} {a b : α}
    (h : (pure a : Except Abort α) = .ok b) : b = a := by
  simpa [Pure.pure, Except.pure] using h.symm

theorem latch_data_address_ok {m : Machine} {v : Int} {m' : Machine}
    (h : latch_data_address m v = .ok m') :
    0 ≤ v ∧ v ≤ (m.memory_size : Int) ∧ m' = { m with data_address := v } := by
  unfold latch_data_address at h
  split at h
  · rename_i hc
    injection h with h'
    exact ⟨hc.1, hc.2, h'.symm⟩
  · exact absurd h (by simp)

theorem latch_head_ok {m : Machine} {s : Int} {m' : Machine}
    (h : latch_head m s = .ok m') :
    0 ≤ m.head + s ∧ m.head + s < (m.stack_size : Int) ∧
      m' = { m with head := m.head + s } := by
  unfold latch_head at h
  split at h
  · split at h
    · rename_i hc
      exact ⟨hc.1, hc.2, by injection h with h'; exact h'.symm⟩
    · exact absurd h (by simp)
  · exact absurd h (by simp)

theorem push_ok {m : Machine} {v : Int} {m' : Machine}
    (h : push m v = .ok m') :
    0 ≤ m.head ∧ m.head.toNat < m.stack.length ∧
      m.head + 1 < (m.stack_size : Int) ∧
      m' = { m with stack := m.stack.set m.head.toNat v, head := m.head + 1 } := by
  unfold push at h
  split at h
  · rename_i hc
    obtain ⟨-, h2, h3⟩ := latch_head_ok h
    exact ⟨hc.1, hc.2, h2, h3⟩
  · exact absurd h (by simp)

theorem get_tos_ok {m : Machine} {off : Int} {v : Int}
    (h : get_tos m off = .ok v) :
    0 ≤ off ∧ off ≤ 3 ∧ off < m.head ∧
      m.stack.get? (m.head - off - 1).toNat = some v := by
  unfold get_tos at h
  split at h
  · rename_i hc
    split at h
    · rename_i hlt
      refine ⟨hc.1, hc.2, hlt, ?_⟩
      split at h
      · rename_i w hw
        injection h with h'
        rw [hw, h']
      · exact absurd h (by simp)
    · exact absurd h (by simp)
  · exact absurd h (by simp)

theorem oe_stack_ok {m : Machine} {off : Int} {sel : Option Opcode} {v : Int}
    (h : oe_stack m off sel = .ok v) :
    1 ≤ m.head ∧ ∃ w, get_tos m off = .ok w ∧
      v = if sel = some Opcode.READ_NDR ∨ sel = some Opcode.WR_NDR then w + 1
          else w := by
  unfold oe_stack at h
  split at h
  · rename_i hh
    refine ⟨hh, ?_⟩
    split at h
    · rename_i w hw
      refine ⟨w, hw, ?_⟩
      split at h <;> rename_i hsel
      · rw [if_pos hsel]; injection h with h'; exact h'.symm
      · rw [if_neg hsel]; injection h with h'; exact h'.symm
    · exact absurd h (by simp)
  · exact absurd h (by simp)

theorem mem_read_ok {m : Machine} {v : Int} {m' : Machine}
    (h : mem_read m = .ok (v, m')) :
    (m.data_address ≠ 1 ∧ m.data_address ≠ 0 ∧
       m.data.get? m.data_address.toNat = some (Cell.int v) ∧ m' = m) ∨
    (m.data_address = 0 ∧ ∃ c rest, m.input_buffer = c :: rest ∧
       v = (c.toNat : Int) ∧
       m' = { m with data := m.data.set 0 (Cell.int (c.toNat : Int)),
                     input_buffer := rest }) := by
  unfold mem_read at h
  split at h
  · exact absurd h (by simp)
  · rename_i h1
    split at h
    · rename_i h0
      left
      split at h
      · rename_i x hx
        injection h with h'
        have hv : x = v := congrArg Prod.fst h'
        have hm : m = m' := congrArg Prod.snd h'
        exact ⟨h1, h0, by rw [hx, hv], hm.symm⟩
      · exact absurd h (by simp)
      · exact absurd h (by simp)
    · rename_i h0
      right
      have h0' : m.data_address = 0 := by
        by_contra hc
        exact h0 hc
      refine ⟨h0', ?_⟩
      split at h
      · exact absurd h (by simp)
      · rename_i c rest hin
        injection h with h'
        have hv := congrArg Prod.fst h'
        have hm := congrArg Prod.snd h'
        simp only at hv hm
        exact ⟨c, rest, hin, hv.symm, hm.symm⟩

theorem mem_write_ok {m : Machine} {value : Int} {m' : Machine}
    (h : mem_write m value = .ok m') :
    (m.data_address ≠ 0 ∧ m.data_address ≠ 1 ∧
       m.data_address.toNat < m.data.length ∧
       m' = { m with data := m.data.set m.data_address.toNat (Cell.int value) }) ∨
    (m.data_address = 1 ∧ 1 < m.data.length ∧
       m' = { m with data := m.data.set 1 (Cell.int value),
                     output_buffer := m.output_buffer ++
                       [if 0 ≤ value ∧ value ≤ 127 then
                          String.singleton (Char.ofNat value.toNat)
                        else toString value] }) := by
  unfold mem_write at h
  split at h
  · exact absurd h (by simp)
  · rename_i h0
    split at h
    · rename_i h1
      left
      split at h
      · rename_i hlen
        injection h with h'
        exact ⟨h0, h1, hlen, h'.symm⟩
      · exact absurd h (by simp)
    · rename_i h1
      right
      have h1' : m.data_address = 1 := by
        by_contra hc
        exact h1 hc
      refine ⟨h1', ?_⟩
      split at h
      · rename_i hlen
        injection h with h'
        exact ⟨hlen, h'.symm⟩
      · exact absurd h (by simp)

theorem latch_pc_true (m : Machine) :
    latch_pc m true = .ok { m with pc := m.pc + 1 } := rfl

theorem latch_pc_ok {m : Machine} {b : Bool} {m' : Machine}
    (h : latch_pc m b = .ok m') : m' = { m with pc := m'.pc } := by
  cases b with
  | true =>
      rw [latch_pc_true] at h
      injection h with h'
      rw [← h']
  | false =>
      unfold latch_pc at h
      rw [if_neg (by simp)] at h
      repeat
        first
        | split at h
        | (injection h with h'; rw [← h'])
        | exact absurd h (by simp)

theorem latch_pc_false_ok {m : Machine} {m' : Machine}
    (h : latch_pc m false = .ok m') :
    ∃ c n, get_instruction m m.pc = .ok (Cell.instr c) ∧
      (c.opcode = Opcode.JMP ∨ c.opcode = Opcode.JNT) ∧
      c.arg = some (Arg.num n) ∧ m' = { m with pc := n } := by
  unfold latch_pc at h
  rw [if_neg (by simp)] at h
  split at h
  · exact absurd h (by simp)
  · exact absurd h (by simp)
  · rename_i hcell i hi
    split at h
    · rename_i hop
      split at h
      · rename_i harg n hn
        injection h with h'
        exact ⟨i, n, hi, hop, hn, h'.symm⟩
      · exact absurd h (by simp)
      · exact absurd h (by simp)
    · exact absurd h (by simp)

theorem is_true_ok {m : Machine} {res : Int} {m' : Machine}
    (h : is_true m = .ok (res, m')) :
    ∃ t, get_tos m 0 = .ok t ∧ res = (if t = -1 then -1 else 0) ∧
      latch_head m (-1) = .ok m' := by
  unfold is_true at h
  split at h
  · exact absurd h (by simp)
  · rename_i t ht
    split at h
    · exact absurd h (by simp)
    · rename_i m2 hm2
      injection h with h'
      have hr := congrArg Prod.fst h'
      have hm := congrArg Prod.snd h'
      simp only at hr hm
      exact ⟨t, ht, hr.symm, by rw [hm2, hm]⟩

theorem latch_alu_shape {m : Machine} {op : Opcode} {m' : Machine}
    (h : latch_alu m op = .ok m') : m' = { m with alu := m'.alu } := by
  cases op <;> simp only [latch_alu] at h <;>
    repeat
      first
      | (obtain ⟨w, hw, h⟩ := bind_ok h)
      | split at h
      | (rw [pure_ok h])
      | rfl
      | exact absurd h (by simp)

/-! ### Characterizations of the micro-operations on success -/

theorem micro_drop_ok {m : Machine} {i : Instr} {m' : Machine}
    (h : micro_drop m i = .ok m') :
    0 ≤ m.head + -1 ∧ m.head + -1 < (m.stack_size : Int) ∧
      m' = { m with head := m.head + -1, pc := m.pc + 1, ticks := m.ticks + 1 } := by
  unfold micro_drop at h
  obtain ⟨m1, h1, h⟩ := bind_ok h
  obtain ⟨hb1, hb2, rfl⟩ := latch_head_ok h1
  obtain ⟨m2, h2, h⟩ := bind_ok h
  rw [latch_pc_true] at h2
  injection h2 with h2'
  subst h2'
  have hm' := pure_ok h
  subst hm'
  exact ⟨hb1, hb2, rfl⟩

theorem micro_no_operation_ok {m : Machine} {i : Instr} {m' : Machine}
    (h : micro_no_operation m i = .ok m') :
    m' = { m with pc := m.pc + 1, ticks := m.ticks + 1 } := by
  unfold micro_no_operation at h
  obtain ⟨m1, h1, h⟩ := bind_ok h
  rw [latch_pc_true] at h1
  injection h1 with h1'
  subst h1'
  have hm' := pure_ok h
  subst hm'
  rfl

theorem micro_jump_ok {m : Machine} {i : Instr} {m' : Machine}
    (h : micro_jump m i = .ok m') :
    ∃ n, i.arg = some (Arg.num n) ∧
      m' = { m with pc := n, ticks := m.ticks + 1 } := by
  unfold micro_jump at h
  split at h
  · rename_i n hn
    injection h with h'
    exact ⟨n, hn, h'.symm⟩
  · exact absurd h (by simp)
  · exact absurd h (by simp)

theorem micro_duplicate_ok {m : Machine} {i : Instr} {m' : Machine}
    (h : micro_duplicate m i = .ok m') :
    ∃ v, get_tos m 0 = .ok v ∧
      0 ≤ m.head ∧ m.head.toNat < m.stack.length ∧
      m.head + 1 < (m.stack_size : Int) ∧
      m' = { m with stack := m.stack.set m.head.toNat v, head := m.head + 1,
                    pc := m.pc + 1, ticks := m.ticks + 1 } := by
  unfold micro_duplicate at h
  obtain ⟨v, hv, h⟩ := bind_ok h
  obtain ⟨m1, h1, h⟩ := bind_ok h
  obtain ⟨hp1, hp2, hp3, rfl⟩ := push_ok h1
  obtain ⟨m2, h2, h⟩ := bind_ok h
  rw [latch_pc_true] at h2
  injection h2 with h2'
  subst h2'
  have hm' := pure_ok h
  subst hm'
  exact ⟨v, hv, hp1, hp2, hp3, rfl⟩

theorem micro_over_ok {m : Machine} {i : Instr} {m' : Machine}
    (h : micro_over m i = .ok m') :
    ∃ v, get_tos m 1 = .ok v ∧
      0 ≤ m.head ∧ m.head.toNat < m.stack.length ∧
      m.head + 1 < (m.stack_size : Int) ∧
      m' = { m with stack := m.stack.set m.head.toNat v, head := m.head + 1,
                    pc := m.pc + 1, ticks := m.ticks + 1 } := by
  unfold micro_over at h
  obtain ⟨v, hv, h⟩ := bind_ok h
  obtain ⟨m1, h1, h⟩ := bind_ok h
  obtain ⟨hp1, hp2, hp3, rfl⟩ := push_ok h1
  obtain ⟨m2, h2, h⟩ := bind_ok h
  rw [latch_pc_true] at h2
  injection h2 with h2'
  subst h2'
  have hm' := pure_ok h
  subst hm'
  exact ⟨v, hv, hp1, hp2, hp3, rfl⟩

/-- mem_read only touches the memory fields: the datapath and control
fields pass through. -/
theorem mem_read_dp {m : Machine} {v : Int} {m' : Machine}
    (h : mem_read m = .ok (v, m')) :
    m'.stack = m.stack ∧ m'.head = m.head ∧ m'.ticks = m.ticks ∧
      m'.stack_size = m.stack_size ∧ m'.pc = m.pc ∧ m'.alu = m.alu := by
  rcases mem_read_ok h with ⟨-, -, -, rfl⟩ | ⟨-, c, rest, -, -, rfl⟩ <;>
    exact ⟨rfl, rfl, rfl, rfl, rfl, rfl⟩

/-- mem_write only touches the memory fields. -/
theorem mem_write_dp {m : Machine} {value : Int} {m' : Machine}
    (h : mem_write m value = .ok m') :
    m'.stack = m.stack ∧ m'.head = m.head ∧ m'.ticks = m.ticks ∧
      m'.stack_size = m.stack_size ∧ m'.pc = m.pc ∧ m'.alu = m.alu := by
  rcases mem_write_ok h with ⟨-, -, -, rfl⟩ | ⟨-, -, rfl⟩ <;>
    exact ⟨rfl, rfl, rfl, rfl, rfl, rfl⟩

theorem micro_swap_ok {m : Machine} {i : Instr} {m' : Machine}
    (h : micro_swap m i = .ok m') :
    ∃ v1 v2, get_tos m 0 = .ok v1 ∧ get_tos m 1 = .ok v2 ∧
      0 ≤ m.head + -2 ∧ m.head < (m.stack_size : Int) ∧
      m' = { m with
              stack := (m.stack.set (m.head + -2).toNat v1).set
                         (m.head + -2 + 1).toNat v2,
              head := m.head + -2 + 1 + 1, pc := m.pc + 1,
              ticks := m.ticks + 1 } := by
  unfold micro_swap at h
  obtain ⟨v1, hv1, h⟩ := bind_ok h
  obtain ⟨v2, hv2, h⟩ := bind_ok h
  obtain ⟨m1, h1, h⟩ := bind_ok h
  obtain ⟨hb1, hb2, rfl⟩ := latch_head_ok h1
  obtain ⟨m2, h2, h⟩ := bind_ok h
  obtain ⟨hp1, hp2, hp3, rfl⟩ := push_ok h2
  obtain ⟨m3, h3, h⟩ := bind_ok h
  obtain ⟨hq1, hq2, hq3, rfl⟩ := push_ok h3
  obtain ⟨m4, h4, h⟩ := bind_ok h
  rw [latch_pc_true] at h4
  injection h4 with h4'
  subst h4'
  have hm' := pure_ok h
  subst hm'
  dsimp only at hq3
  exact ⟨v1, v2, hv1, hv2, hb1, by omega, rfl⟩

theorem micro_push_ok {m : Machine} {i : Instr} {m' : Machine}
    (h : micro_push m i = .ok m') :
    ∃ v, (i.arg = some (Arg.num v) ∨
          ∃ c, i.arg = some (Arg.ch c) ∧ v = (c.toNat : Int)) ∧
      0 ≤ m.head ∧ m.head.toNat < m.stack.length ∧
      m.head + 1 < (m.stack_size : Int) ∧
      m' = { m with stack := m.stack.set m.head.toNat v, head := m.head + 1,
                    pc := m.pc + 1, ticks := m.ticks + 1 } := by
  unfold micro_push at h
  obtain ⟨v, hv, h⟩ := bind_ok h
  obtain ⟨m1, h1, h⟩ := bind_ok h
  obtain ⟨hp1, hp2, hp3, rfl⟩ := push_ok h1
  obtain ⟨m2, h2, h⟩ := bind_ok h
  rw [latch_pc_true] at h2
  injection h2 with h2'
  subst h2'
  have hm' := pure_ok h
  subst hm'
  refine ⟨v, ?_, hp1, hp2, hp3, rfl⟩
  split at hv
  · rename_i n hn
    injection hv with hv'
    exact Or.inl (by rw [hn, hv'])
  · rename_i c hc
    injection hv with hv'
    exact Or.inr ⟨c, hc, hv'.symm⟩
  · rename_i hnone
    exact absurd hv (by simp)

theorem micro_rotate_ok {m : Machine} {i : Instr} {m' : Machine}
    (h : micro_rotate m i = .ok m') :
    ∃ a b c, get_tos m 2 = .ok a ∧ get_tos m 1 = .ok b ∧ get_tos m 0 = .ok c ∧
      0 ≤ m.head + -3 ∧ m.head < (m.stack_size : Int) ∧
      (m.head + -3).toNat < m.stack.length ∧
      (m.head + -3 + 1).toNat < m.stack.length ∧
      (m.head + -3 + 1 + 1).toNat < m.stack.length ∧
      m' = { m with
              stack := ((m.stack.set (m.head + -3).toNat b).set
                          (m.head + -3 + 1).toNat c).set
                         (m.head + -3 + 1 + 1).toNat a,
              head := m.head + -3 + 1 + 1 + 1, pc := m.pc + 1,
              ticks := m.ticks + 1 } := by
  unfold micro_rotate at h
  obtain ⟨v1, hv1, h⟩ := bind_ok h
  obtain ⟨v2, hv2, h⟩ := bind_ok h
  obtain ⟨v3, hv3, h⟩ := bind_ok h
  obtain ⟨m1, h1, h⟩ := bind_ok h
  obtain ⟨hb1, hb2, rfl⟩ := latch_head_ok h1
  obtain ⟨m2, h2, h⟩ := bind_ok h
  obtain ⟨hp1, hp2, hp3, rfl⟩ := push_ok h2
  obtain ⟨m3, h3, h⟩ := bind_ok h
  obtain ⟨hq1, hq2, hq3, rfl⟩ := push_ok h3
  obtain ⟨m4, h4, h⟩ := bind_ok h
  obtain ⟨hr1, hr2, hr3, rfl⟩ := push_ok h4
  obtain ⟨m5, h5, h⟩ := bind_ok h
  rw [latch_pc_true] at h5
  injection h5 with h5'
  subst h5'
  have hm' := pure_ok h
  subst hm'
  dsimp only at hp2 hq2 hr2 hr3
  simp only [List.length_set] at hq2 hr2
  exact ⟨v3, v1, v2, hv3, hv1, hv2, hb1, by omega, hp2, hq2, hr2, rfl⟩

theorem micro_jump_if_not_true_ok {m : Machine} {i : Instr} {m' : Machine}
    (h : micro_jump_if_not_true m i = .ok m') :
    ∃ t, get_tos m 0 = .ok t ∧
      0 ≤ m.head + -1 ∧ m.head + -1 < (m.stack_size : Int) ∧
      m'.stack = m.stack ∧ m'.head = m.head + -1 ∧
      m'.stack_size = m.stack_size ∧ m'.ticks = m.ticks + 1 ∧
      (m'.pc = m.pc + 1 ∨
        ∃ c n, get_instruction m m.pc = .ok (Cell.instr c) ∧
          (c.opcode = Opcode.JMP ∨ c.opcode = Opcode.JNT) ∧
          c.arg = some (Arg.num n) ∧ m'.pc = n) := by
  unfold micro_jump_if_not_true at h
  obtain ⟨⟨res, m1⟩, h1, h⟩ := bind_ok h
  obtain ⟨t, ht, hres, hlh⟩ := is_true_ok h1
  obtain ⟨hb1, hb2, rfl⟩ := latch_head_ok hlh
  obtain ⟨m2, h2, h⟩ := bind_ok h
  have hm' := pure_ok h
  subst hm'
  cases hres2 : (res != 0) with
  | true =>
      rw [hres2, latch_pc_true] at h2
      injection h2 with h2'
      subst h2'
      exact ⟨t, ht, hb1, hb2, rfl, rfl, rfl, rfl, Or.inl rfl⟩
  | false =>
      rw [hres2] at h2
      obtain ⟨c, n, hci, hcop, hcarg, rfl⟩ := latch_pc_false_ok h2
      exact ⟨t, ht, hb1, hb2, rfl, rfl, rfl, rfl,
        Or.inr ⟨c, n, hci, hcop, hcarg, rfl⟩⟩

theorem latch_alu_inv {m : Machine} {m' : Machine}
    (h : latch_alu m Opcode.INV = .ok m') :
    ∃ t0, get_tos m 0 = .ok t0 ∧ m' = { m with alu := (t0 + 1) * (-1) } := by
  simp only [latch_alu] at h
  obtain ⟨t0, ht0, h⟩ := bind_ok h
  exact ⟨t0, ht0, (pure_ok h)⟩

theorem latch_alu_pow {m : Machine} {m' : Machine}
    (h : latch_alu m Opcode.POW = .ok m') :
    ∃ t0 t1, get_tos m 0 = .ok t0 ∧ get_tos m 1 = .ok t1 ∧ 0 ≤ t1 ∧
      m' = { m with alu := t0 ^ t1.toNat } := by
  simp only [latch_alu] at h
  obtain ⟨t0, ht0, h⟩ := bind_ok h
  obtain ⟨t1, ht1, h⟩ := bind_ok h
  split at h
  · rename_i hle
    exact ⟨t0, t1, ht0, ht1, hle, pure_ok h⟩
  · exact absurd h (by simp)

theorem latch_alu_div (m : Machine) : latch_alu m Opcode.DIV = .ok m := rfl

theorem micro_alu_operation_ok {m : Machine} {i : Instr} {m' : Machine}
    (h : micro_alu_operation m i = .ok m') :
    m'.ticks = m.ticks + 2 ∧ m'.stack_size = m.stack_size ∧
      m'.stack.length = m.stack.length ∧ 0 ≤ m'.head ∧
      m'.head < (m'.stack_size : Int) ∧ m'.pc = m.pc + 1 := by
  unfold micro_alu_operation at h
  obtain ⟨m1, h1, h⟩ := bind_ok h
  have hsh := latch_alu_shape h1
  have e1 : m1.ticks = m.ticks := by rw [hsh]
  have e2 : m1.stack = m.stack := by rw [hsh]
  have e3 : m1.stack_size = m.stack_size := by rw [hsh]
  have e4 : m1.pc = m.pc := by rw [hsh]
  obtain ⟨m2, h2, h⟩ := bind_ok h
  obtain ⟨hb1, hb2, rfl⟩ := latch_head_ok h2
  obtain ⟨m3, h3, h⟩ := bind_ok h
  obtain ⟨hp1, hp2, hp3, rfl⟩ := push_ok h3
  obtain ⟨m4, h4, h⟩ := bind_ok h
  rw [latch_pc_true] at h4
  injection h4 with h4'
  subst h4'
  have hm' := pure_ok h
  subst hm'
  dsimp only [tick] at hp1 hp2 hp3 ⊢
  generalize hs : (if i.opcode = Opcode.NEG ∨ i.opcode = Opcode.INV
    then (-1 : Int) else -2) = s at hb1 hb2 hp1 hp3 ⊢
  refine ⟨by omega, e3, ?_, by omega, by omega, by rw [e4]⟩
  rw [List.length_set, e2]

/-- An INVERT arithmetic step in full: latch -(top(0)+1), pop one, push. -/
theorem micro_alu_inv_ok {m : Machine} {i : Instr} {m' : Machine}
    (hop : i.opcode = Opcode.INV)
    (h : micro_alu_operation m i = .ok m') :
    ∃ t0, get_tos m 0 = .ok t0 ∧
      0 ≤ m.head + -1 ∧ (m.head + -1).toNat < m.stack.length ∧
      m' = { m with alu := (t0 + 1) * (-1),
                    stack := m.stack.set (m.head + -1).toNat ((t0 + 1) * (-1)),
                    head := m.head + -1 + 1, pc := m.pc + 1,
                    ticks := m.ticks + 2 } := by
  unfold micro_alu_operation at h
  rw [hop] at h
  obtain ⟨m1, h1, h⟩ := bind_ok h
  obtain ⟨t0, ht0, rfl⟩ := latch_alu_inv h1
  obtain ⟨m2, h2, h⟩ := bind_ok h
  rw [if_pos (by simp)] at h2
  obtain ⟨hb1, hb2, rfl⟩ := latch_head_ok h2
  obtain ⟨m3, h3, h⟩ := bind_ok h
  obtain ⟨hp1, hp2, hp3, rfl⟩ := push_ok h3
  obtain ⟨m4, h4, h⟩ := bind_ok h
  rw [latch_pc_true] at h4
  injection h4 with h4'
  subst h4'
  have hm' := pure_ok h
  subst hm'
  dsimp only [tick] at hb1 hp2 ⊢
  exact ⟨t0, ht0, hb1, hp2, rfl⟩

/-- A POW arithmetic step in full: latch top(0) ** top(1), pop two, push. -/
theorem micro_alu_pow_ok {m : Machine} {i : Instr} {m' : Machine}
    (hop : i.opcode = Opcode.POW)
    (h : micro_alu_operation m i = .ok m') :
    ∃ t0 t1, get_tos m 0 = .ok t0 ∧ get_tos m 1 = .ok t1 ∧ 0 ≤ t1 ∧
      0 ≤ m.head + -2 ∧ (m.head + -2).toNat < m.stack.length ∧
      m' = { m with alu := t0 ^ t1.toNat,
                    stack := m.stack.set (m.head + -2).toNat (t0 ^ t1.toNat),
                    head := m.head + -2 + 1, pc := m.pc + 1,
                    ticks := m.ticks + 2 } := by
  unfold micro_alu_operation at h
  rw [hop] at h
  obtain ⟨m1, h1, h⟩ := bind_ok h
  obtain ⟨t0, t1, ht0, ht1, hle, rfl⟩ := latch_alu_pow h1
  obtain ⟨m2, h2, h⟩ := bind_ok h
  rw [if_neg (by simp)] at h2
  obtain ⟨hb1, hb2, rfl⟩ := latch_head_ok h2
  obtain ⟨m3, h3, h⟩ := bind_ok h
  obtain ⟨hp1, hp2, hp3, rfl⟩ := push_ok h3
  obtain ⟨m4, h4, h⟩ := bind_ok h
  rw [latch_pc_true] at h4
  injection h4 with h4'
  subst h4'
  have hm' := pure_ok h
  subst hm'
  dsimp only [tick] at hb1 hp2 ⊢
  exact ⟨t0, t1, ht0, ht1, hle, hb1, hp2, rfl⟩

/-- A DIV arithmetic step in full: the ALU latch has no DIV case, so the
accumulator keeps its previous content; pop two, push that content. -/
theorem micro_alu_div_ok {m : Machine} {i : Instr} {m' : Machine}
    (hop : i.opcode = Opcode.DIV)
    (h : micro_alu_operation m i = .ok m') :
    0 ≤ m.head + -2 ∧ (m.head + -2).toNat < m.stack.length ∧
      m' = { m with stack := m.stack.set (m.head + -2).toNat m.alu,
                    head := m.head + -2 + 1, pc := m.pc + 1,
                    ticks := m.ticks + 2 } := by
  unfold micro_alu_operation at h
  rw [hop] at h
  obtain ⟨m1, h1, h⟩ := bind_ok h
  rw [latch_alu_div] at h1
  injection h1 with h1'
  subst h1'
  obtain ⟨m2, h2, h⟩ := bind_ok h
  rw [if_neg (by simp)] at h2
  obtain ⟨hb1, hb2, rfl⟩ := latch_head_ok h2
  obtain ⟨m3, h3, h⟩ := bind_ok h
  obtain ⟨hp1, hp2, hp3, rfl⟩ := push_ok h3
  obtain ⟨m4, h4, h⟩ := bind_ok h
  rw [latch_pc_true] at h4
  injection h4 with h4'
  subst h4'
  have hm' := pure_ok h
  subst hm'
  dsimp only [tick] at hb1 hp2 ⊢
  exact ⟨hb1, hp2, rfl⟩

theorem micro_read_direct_ok {m : Machine} {i : Instr} {m' : Machine}
    (h : micro_read_direct m i = .ok m') :
    m'.ticks = m.ticks + 2 ∧ m'.stack_size = m.stack_size ∧
      m'.stack.length = m.stack.length ∧ 0 ≤ m'.head ∧
      m'.head < (m'.stack_size : Int) ∧ m'.pc = m.pc + 1 := by
  unfold micro_read_direct at h
  obtain ⟨top, htop, h⟩ := bind_ok h
  obtain ⟨m1, h1, h⟩ := bind_ok h
  obtain ⟨-, -, rfl⟩ := latch_data_address_ok h1
  obtain ⟨m2, h2, h⟩ := bind_ok h
  obtain ⟨hb1, hb2, rfl⟩ := latch_head_ok h2
  obtain ⟨⟨v, m3⟩, h3, h⟩ := bind_ok h
  obtain ⟨e1, e2, e3, e4, e5, e6⟩ := mem_read_dp h3
  obtain ⟨m4, h4, h⟩ := bind_ok h
  obtain ⟨hp1, hp2, hp3, rfl⟩ := push_ok h4
  obtain ⟨m5, h5, h⟩ := bind_ok h
  rw [latch_pc_true] at h5
  injection h5 with h5'
  subst h5'
  have hm' := pure_ok h
  subst hm'
  dsimp only [tick] at e1 e2 e3 e4 e5 e6 hp1 hp2 hp3 ⊢
  refine ⟨by omega, by rw [e4], ?_, by omega, by omega, by rw [e5]⟩
  rw [List.length_set, e1]

theorem micro_write_direct_ok {m : Machine} {i : Instr} {m' : Machine}
    (h : micro_write_direct m i = .ok m') :
    m'.ticks = m.ticks + 2 ∧ m'.stack_size = m.stack_size ∧
      m'.stack.length = m.stack.length ∧ 0 ≤ m'.head ∧
      m'.head < (m'.stack_size : Int) ∧ m'.pc = m.pc + 1 := by
  unfold micro_write_direct at h
  obtain ⟨adr, hadr, h⟩ := bind_ok h
  obtain ⟨m1, h1, h⟩ := bind_ok h
  obtain ⟨-, -, rfl⟩ := latch_data_address_ok h1
  obtain ⟨v, hv, h⟩ := bind_ok h
  obtain ⟨m2, h2, h⟩ := bind_ok h
  obtain ⟨e1, e2, e3, e4, e5, e6⟩ := mem_write_dp h2
  obtain ⟨m3, h3, h⟩ := bind_ok h
  obtain ⟨hb1, hb2, rfl⟩ := latch_head_ok h3
  obtain ⟨m4, h4, h⟩ := bind_ok h
  rw [latch_pc_true] at h4
  injection h4 with h4'
  subst h4'
  have hm' := pure_ok h
  subst hm'
  dsimp only [tick] at e1 e2 e3 e4 e5 e6 hb1 hb2 ⊢
  exact ⟨by omega, by rw [e4], by rw [e1], by omega, by omega, by rw [e5]⟩

theorem micro_read_indirect_ok {m : Machine} {i : Instr} {m' : Machine}
    (h : micro_read_indirect m i = .ok m') :
    m'.ticks = m.ticks + 7 ∧ m'.stack_size = m.stack_size ∧
      m'.stack.length = m.stack.length ∧ 0 ≤ m'.head ∧
      m'.head < (m'.stack_size : Int) ∧ m'.pc = m.pc + 1 := by
  unfold micro_read_indirect at h
  obtain ⟨a1, ha1, h⟩ := bind_ok h
  obtain ⟨m1, h1, h⟩ := bind_ok h
  obtain ⟨-, -, rfl⟩ := latch_data_address_ok h1
  obtain ⟨⟨v1, m2⟩, h2, h⟩ := bind_ok h
  obtain ⟨e1, e2, e3, e4, e5, e6⟩ := mem_read_dp h2
  obtain ⟨m3, h3, h⟩ := bind_ok h
  obtain ⟨hp1, hp2, hp3, rfl⟩ := push_ok h3
  obtain ⟨a2, ha2, h⟩ := bind_ok h
  obtain ⟨m4, h4, h⟩ := bind_ok h
  obtain ⟨-, -, rfl⟩ := latch_data_address_ok h4
  obtain ⟨⟨v2, m5⟩, h5, h⟩ := bind_ok h
  obtain ⟨f1, f2, f3, f4, f5, f6⟩ := mem_read_dp h5
  obtain ⟨m6, h6, h⟩ := bind_ok h
  obtain ⟨hq1, hq2, hq3, rfl⟩ := push_ok h6
  obtain ⟨w1, hw1, h⟩ := bind_ok h
  obtain ⟨w2, hw2, h⟩ := bind_ok h
  obtain ⟨w3, hw3, h⟩ := bind_ok h
  obtain ⟨m7, h7, h⟩ := bind_ok h
  obtain ⟨hc1, hc2, rfl⟩ := latch_head_ok h7
  obtain ⟨m8, h8, h⟩ := bind_ok h
  obtain ⟨hr1, hr2, hr3, rfl⟩ := push_ok h8
  obtain ⟨m9, h9, h⟩ := bind_ok h
  obtain ⟨hs1, hs2, hs3, rfl⟩ := push_ok h9
  obtain ⟨m10, h10, h⟩ := bind_ok h
  obtain ⟨ht1, ht2, ht3, rfl⟩ := push_ok h10
  obtain ⟨a3, ha3, h⟩ := bind_ok h
  obtain ⟨m11, h11, h⟩ := bind_ok h
  obtain ⟨-, -, rfl⟩ := latch_data_address_ok h11
  obtain ⟨w4, hw4, h⟩ := bind_ok h
  obtain ⟨m12, h12, h⟩ := bind_ok h
  obtain ⟨g1, g2, g3, g4, g5, g6⟩ := mem_write_dp h12
  obtain ⟨m13, h13, h⟩ := bind_ok h
  obtain ⟨hu1, hu2, rfl⟩ := latch_head_ok h13
  obtain ⟨m14, h14, h⟩ := bind_ok h
  rw [latch_pc_true] at h14
  injection h14 with h14'
  subst h14'
  have hm' := pure_ok h
  subst hm'
  try dsimp only [tick] at e1 e2 e3 e4 e5 e6 f1 f2 f3 f4 f5 f6
  try dsimp only [tick] at g1 g2 g3 g4 g5 g6 hp1 hp2 hp3 hq1 hq2 hq3
  try dsimp only [tick] at hc1 hc2 hr1 hr2 hr3 hs1 hs2 hs3 ht1 ht2 ht3
  try dsimp only [tick] at hu1 hu2
  try dsimp only [tick]
  have L : m12.stack.length = m.stack.length := by
    simp only [g1, List.length_set, f1, e1]
  exact ⟨by omega, by rw [g4, f4, e4], L, by omega, by omega,
    by rw [g5, f5, e5]⟩

theorem micro_write_indirect_ok {m : Machine} {i : Instr} {m' : Machine}
    (h : micro_write_indirect m i = .ok m') :
    m'.ticks = m.ticks + 6 ∧ m'.stack_size = m.stack_size ∧
      m'.stack.length = m.stack.length ∧ 0 ≤ m'.head ∧
      m'.head < (m'.stack_size : Int) ∧ m'.pc = m.pc + 1 := by
  unfold micro_write_indirect at h
  obtain ⟨a1, ha1, h⟩ := bind_ok h
  obtain ⟨m1, h1, h⟩ := bind_ok h
  obtain ⟨-, -, rfl⟩ := latch_data_address_ok h1
  obtain ⟨⟨v1, m2⟩, h2, h⟩ := bind_ok h
  obtain ⟨e1, e2, e3, e4, e5, e6⟩ := mem_read_dp h2
  obtain ⟨m3, h3, h⟩ := bind_ok h
  obtain ⟨hp1, hp2, hp3, rfl⟩ := push_ok h3
  obtain ⟨a2, ha2, h⟩ := bind_ok h
  obtain ⟨m4, h4, h⟩ := bind_ok h
  obtain ⟨-, -, rfl⟩ := latch_data_address_ok h4
  obtain ⟨w1, hw1, h⟩ := bind_ok h
  obtain ⟨m5, h5, h⟩ := bind_ok h
  obtain ⟨f1, f2, f3, f4, f5, f6⟩ := mem_write_dp h5
  obtain ⟨a3, ha3, h⟩ := bind_ok h
  obtain ⟨m6, h6, h⟩ := bind_ok h
  obtain ⟨-, -, rfl⟩ := latch_data_address_ok h6
  obtain ⟨w2, hw2, h⟩ := bind_ok h
  obtain ⟨m7, h7, h⟩ := bind_ok h
  obtain ⟨g1, g2, g3, g4, g5, g6⟩ := mem_write_dp h7
  obtain ⟨m8, h8, h⟩ := bind_ok h
  obtain ⟨hu1, hu2, rfl⟩ := latch_head_ok h8
  obtain ⟨m9, h9, h⟩ := bind_ok h
  rw [latch_pc_true] at h9
  injection h9 with h9'
  subst h9'
  have hm' := pure_ok h
  subst hm'
  try dsimp only [tick] at e1 e2 e3 e4 e5 e6 f1 f2 f3 f4 f5 f6
  try dsimp only [tick] at g1 g2 g3 g4 g5 g6 hp1 hp2 hp3 hu1 hu2
  try dsimp only [tick]
  have L : m7.stack.length = m.stack.length := by
    simp only [g1, List.length_set, f1, e1]
  exact ⟨by omega, by rw [g4, f4, e4], L, by omega, by omega,
    by rw [g5, f5, e5]⟩

/-- The datapath stack invariant of the spec: `0 <= head < capacity`,
with the stack arena's length fixed at its capacity. -/
def stack_inv (m : Machine) : Prop :=
  0 ≤ m.head ∧ m.head < (m.stack_size : Int) ∧
    m.stack.length = m.stack_size

/-- A depth query at or beyond the head always fails. -/
theorem get_tos_underflow {m : Machine} {off : Int} (hoff : m.head ≤ off) :
    get_tos m off = .error .err := by
  unfold get_tos
  split
  · rw [if_neg (by omega)]
  · rfl

theorem execute_micro_operation_inv {m : Machine} {i : Instr} {m' : Machine}
    (h : execute_micro_operation m i = .ok m') (hinv : stack_inv m) :
    stack_inv m' ∧ m'.stack_size = m.stack_size := by
  obtain ⟨hi1, hi2, hi3⟩ := hinv
  unfold execute_micro_operation at h
  cases hop : i.opcode <;> rw [hop] at h
  case WR_DIR =>
    obtain ⟨ht, hs, hl, hb1, hb2, -⟩ := micro_write_direct_ok h
    exact ⟨⟨hb1, hb2, by rw [hl, hi3, hs]⟩, hs⟩
  case WR_NDR =>
    obtain ⟨ht, hs, hl, hb1, hb2, -⟩ := micro_write_indirect_ok h
    exact ⟨⟨hb1, hb2, by rw [hl, hi3, hs]⟩, hs⟩
  case READ_DIR =>
    obtain ⟨ht, hs, hl, hb1, hb2, -⟩ := micro_read_direct_ok h
    exact ⟨⟨hb1, hb2, by rw [hl, hi3, hs]⟩, hs⟩
  case READ_NDR =>
    obtain ⟨ht, hs, hl, hb1, hb2, -⟩ := micro_read_indirect_ok h
    exact ⟨⟨hb1, hb2, by rw [hl, hi3, hs]⟩, hs⟩
  case PRINT =>
    injection h with h'
    subst h'
    exact ⟨⟨hi1, hi2, hi3⟩, rfl⟩
  case MINUS =>
    injection h with h'
    subst h'
    exact ⟨⟨hi1, hi2, hi3⟩, rfl⟩
  case BEGIN =>
    have hr := micro_no_operation_ok h
    subst hr
    exact ⟨⟨hi1, hi2, hi3⟩, rfl⟩
  case NOP =>
    have hr := micro_no_operation_ok h
    subst hr
    exact ⟨⟨hi1, hi2, hi3⟩, rfl⟩
  case MOD =>
    obtain ⟨ht, hs, hl, hb1, hb2, -⟩ := micro_alu_operation_ok h
    exact ⟨⟨hb1, hb2, by rw [hl, hi3, hs]⟩, hs⟩
  case PLUS =>
    obtain ⟨ht, hs, hl, hb1, hb2, -⟩ := micro_alu_operation_ok h
    exact ⟨⟨hb1, hb2, by rw [hl, hi3, hs]⟩, hs⟩
  case MULT =>
    obtain ⟨ht, hs, hl, hb1, hb2, -⟩ := micro_alu_operation_ok h
    exact ⟨⟨hb1, hb2, by rw [hl, hi3, hs]⟩, hs⟩
  case DIV =>
    obtain ⟨ht, hs, hl, hb1, hb2, -⟩ := micro_alu_operation_ok h
    exact ⟨⟨hb1, hb2, by rw [hl, hi3, hs]⟩, hs⟩
  case POW =>
    obtain ⟨ht, hs, hl, hb1, hb2, -⟩ := micro_alu_operation_ok h
    exact ⟨⟨hb1, hb2, by rw [hl, hi3, hs]⟩, hs⟩
  case LT =>
    obtain ⟨ht, hs, hl, hb1, hb2, -⟩ := micro_alu_operation_ok h
    exact ⟨⟨hb1, hb2, by rw [hl, hi3, hs]⟩, hs⟩
  case NEG =>
    obtain ⟨ht, hs, hl, hb1, hb2, -⟩ := micro_alu_operation_ok h
    exact ⟨⟨hb1, hb2, by rw [hl, hi3, hs]⟩, hs⟩
  case INV =>
    obtain ⟨ht, hs, hl, hb1, hb2, -⟩ := micro_alu_operation_ok h
    exact ⟨⟨hb1, hb2, by rw [hl, hi3, hs]⟩, hs⟩
  case JNT =>
    obtain ⟨t, ht, hb1, hb2, hst, hhd, hs, htk, -⟩ := micro_jump_if_not_true_ok h
    exact ⟨⟨by omega, by omega, by rw [hst, hi3, hs]⟩, hs⟩
  case HALT => exact absurd h (by simp [micro_halt])
  case ROT =>
    obtain ⟨a, b, c, -, -, -, hb1, hb2, -, -, -, rfl⟩ := micro_rotate_ok h
    refine ⟨⟨by dsimp only; omega, by dsimp only; omega, ?_⟩, rfl⟩
    dsimp only
    simp only [List.length_set]
    exact hi3
  case DUP =>
    obtain ⟨v, -, hp1, hp2, hp3, rfl⟩ := micro_duplicate_ok h
    refine ⟨⟨by dsimp only; omega, by dsimp only; omega, ?_⟩, rfl⟩
    dsimp only
    simp only [List.length_set]
    exact hi3
  case OVER =>
    obtain ⟨v, -, hp1, hp2, hp3, rfl⟩ := micro_over_ok h
    refine ⟨⟨by dsimp only; omega, by dsimp only; omega, ?_⟩, rfl⟩
    dsimp only
    simp only [List.length_set]
    exact hi3
  case SWAP =>
    obtain ⟨v1, v2, -, -, hb1, hb2, rfl⟩ := micro_swap_ok h
    refine ⟨⟨by dsimp only; omega, by dsimp only; omega, ?_⟩, rfl⟩
    dsimp only
    simp only [List.length_set]
    exact hi3
  case PUSH =>
    obtain ⟨v, -, hp1, hp2, hp3, rfl⟩ := micro_push_ok h
    refine ⟨⟨by dsimp only; omega, by dsimp only; omega, ?_⟩, rfl⟩
    dsimp only
    simp only [List.length_set]
    exact hi3
  case DROP =>
    obtain ⟨hb1, hb2, rfl⟩ := micro_drop_ok h
    exact ⟨⟨hb1, hb2, hi3⟩, rfl⟩
  case JMP =>
    obtain ⟨n, -, rfl⟩ := micro_jump_ok h
    exact ⟨⟨hi1, hi2, hi3⟩, rfl⟩

theorem decode_and_execute_inv {m m' : Machine}
    (h : decode_and_execute m = .ok m') (hinv : stack_inv m) :
    stack_inv m' ∧ m'.stack_size = m.stack_size := by
  unfold decode_and_execute at h
  split at h
  · exact absurd h (by simp)
  · exact absurd h (by simp)
  · exact execute_micro_operation_inv h hinv

theorem reachable_inv {m0 m : Machine} (hr : reachable m0 m)
    (hinv : stack_inv m0) : stack_inv m ∧ m.stack_size = m0.stack_size := by
  induction hr with
  | refl => exact ⟨hinv, rfl⟩
  | step hr hstep ih =>
      obtain ⟨ih1, ih2⟩ := ih
      obtain ⟨j1, j2⟩ := decode_and_execute_inv hstep ih1
      exact ⟨j1, by rw [j2, ih2]⟩

theorem sim_loop_of_steps :
    ∀ (n : Nat) (m mf : Machine) (c : Nat),
      step_iter n m = .ok mf → sim_loop n m c = .ok (mf, c + n) := by
  intro n
  induction n with
  | zero =>
      intro m mf c h
      injection h with h'
      subst h'
      rfl
  | succ k ih =>
      intro m mf c h
      unfold step_iter at h
      unfold sim_loop
      cases hd : decode_and_execute m with
      | ok m2 =>
          rw [hd] at h
          dsimp only at h ⊢
          have hk := ih m2 mf (c + 1) h
          rw [hk]
          have hc : c + 1 + k = c + (k + 1) := by omega
          rw [hc]
      | error e =>
          rw [hd] at h
          dsimp only at h
          exact absurd h (by simp)

/-! ### Concrete machines used by the witnesses and counterexamples -/

/-- Extract the machine of a successful step (fallback for the error case,
never reached in the concrete computations below). -/
def okOr (x : Except Abort Machine) (dflt : Machine) : Machine :=
  match x with
  | .ok m => m
  | .error _ => dflt

/-- A small machine used as the okOr fallback. -/
def dflt_machine : Machine :=
  ⟨0, 4, [Cell.int 0, Cell.int 0, Cell.int 0, Cell.int 0], 0, 0, [], [],
   List.replicate 8 0, 0, 8, 0, 0, 0⟩

/-- A helper to establish a top-of-stack read from explicit bounds and the
stored element. -/
theorem get_tos_of_stack {m : Machine} {off : Int} {v : Int}
    (h0 : 0 ≤ off) (h3 : off ≤ 3) (hlt : off < m.head)
    (hget : m.stack.get? (m.head - off - 1).toNat = some v) :
    get_tos m off = .ok v := by
  unfold get_tos
  rw [if_pos ⟨h0, h3⟩, if_pos hlt, hget]

def c1_instr : Instr := ⟨Opcode.HALT, none, none⟩

def c1_machine : Machine :=
  okOr (simulation_init [c1_instr] 200 [] [7]) dflt_machine

/-- C1 is a code bug: `Memory.__init__` lays the memory out as
`data + zeros + program` from address 0, and `get_instruction` translates
pc by `memory_size - program_len`.  Evaluated at memory_size 200, a
one-instruction program and data segment [7]: the data word 7 sits at
address 0 (the input port), not at address 2 as the claim (and Memory's
own docstring) state; address 2 holds the zero fill; the program text sits
at address 199, not 128; and fetching pc 0 returns the cell at address
199 while address 128 holds a zero-filled data word — contradicting
"fetch_instruction(pc) reads the word stored at address 128 + pc". -/
theorem c1_memory_layout :
    simulation_init [c1_instr] 200 [] [7] = .ok c1_machine ∧
    c1_machine.data.get? 0 = some (Cell.int 7) ∧
    c1_machine.data.get? 2 = some (Cell.int 0) ∧
    c1_machine.program_start = 199 ∧
    get_instruction c1_machine 0 = .ok (Cell.instr c1_instr) ∧
    c1_machine.data.get? 128 = some (Cell.int 0) ∧
    c1_machine.data.get? 199 = some (Cell.instr c1_instr) ∧
    (199 : Nat) ≠ 128 :=
  ⟨rfl, rfl, rfl, rfl, rfl, rfl, rfl, by decide⟩

def c2_read_machine : Machine :=
  ⟨0, 4, [Cell.int 0, Cell.int 0, Cell.int 3, Cell.int 42], 0, 0, [], [],
   (List.replicate 8 0).set 0 2, 1, 8, 0, 0, 0⟩

def c2_read_result : Machine :=
  okOr (execute_micro_operation c2_read_machine ⟨Opcode.READ_NDR, none, none⟩)
    dflt_machine

def c2_write_machine : Machine :=
  ⟨0, 4, [Cell.int 0, Cell.int 0, Cell.int 3, Cell.int 7], 0, 0, [], [],
   ((List.replicate 8 0).set 0 9).set 1 2, 2, 8, 0, 0, 0⟩

def c2_write_result : Machine :=
  okOr (execute_micro_operation c2_write_machine ⟨Opcode.WR_NDR, none, none⟩)
    dflt_machine

/-- C2 fails on the code: a successfully executed READ_NDR instruction
advances the tick counter by 7 (micro_read_indirect calls tick() seven
times), and WR_NDR advances it by 6 — not by 5 as claimed.  Shown on a
concrete machine whose pointer chain resolves. -/
theorem c2_counterexample :
    execute_micro_operation c2_read_machine ⟨Opcode.READ_NDR, none, none⟩ =
      .ok c2_read_result ∧
    c2_read_machine.ticks = 0 ∧ c2_read_result.ticks = 7 ∧
    execute_micro_operation c2_write_machine ⟨Opcode.WR_NDR, none, none⟩ =
      .ok c2_write_result ∧
    c2_write_machine.ticks = 0 ∧ c2_write_result.ticks = 6 ∧
    (7 : Nat) ≠ 5 ∧ (6 : Nat) ≠ 5 :=
  ⟨rfl, rfl, rfl, rfl, rfl, rfl, by decide, by decide⟩

/-- C2 (amended): executing one READ_NDR instruction increments the tick
counter by exactly 7, and executing one WR_NDR instruction increments the
tick counter by exactly 6. -/
theorem c2_indirect_tick_cost :
    (∀ (m : Machine) (i : Instr) (m' : Machine), i.opcode = Opcode.READ_NDR →
        execute_micro_operation m i = .ok m' → m'.ticks = m.ticks + 7) ∧
    (∀ (m : Machine) (i : Instr) (m' : Machine), i.opcode = Opcode.WR_NDR →
        execute_micro_operation m i = .ok m' → m'.ticks = m.ticks + 6) := by
  constructor
  · intro m i m' hop h
    simp only [execute_micro_operation, hop] at h
    exact (micro_read_indirect_ok h).1
  · intro m i m' hop h
    simp only [execute_micro_operation, hop] at h
    exact (micro_write_indirect_ok h).1

/-- Witness for the amended C2 at the concrete machines. -/
theorem c2_indirect_tick_cost_witness :
    execute_micro_operation c2_read_machine ⟨Opcode.READ_NDR, none, none⟩ =
      .ok c2_read_result ∧
    c2_read_result.ticks = c2_read_machine.ticks + 7 ∧
    execute_micro_operation c2_write_machine ⟨Opcode.WR_NDR, none, none⟩ =
      .ok c2_write_result ∧
    c2_write_result.ticks = c2_write_machine.ticks + 6 :=
  ⟨rfl, c2_indirect_tick_cost.1 c2_read_machine ⟨Opcode.READ_NDR, none, none⟩
      c2_read_result rfl rfl,
   rfl, c2_indirect_tick_cost.2 c2_write_machine ⟨Opcode.WR_NDR, none, none⟩
      c2_write_result rfl rfl⟩

def c3_machine : Machine :=
  ⟨0, 4, [Cell.int 0], 0, 0, [], [],
   (((List.replicate 8 0).set 0 10).set 1 20).set 2 30, 3, 8, 0, 0, 0⟩

def c3_result : Machine :=
  okOr (execute_micro_operation c3_machine ⟨Opcode.ROT, none, none⟩)
    dflt_machine

/-- C3 fails on the code: on the stack 10, 20, 30 (30 on top) the claim
predicts new top = 20 (old second) and third-from-top unchanged (10), but
micro_rotate pushes top(1), top(0), top(2), so the new top is 10 (the old
third-from-top) and the new third-from-top is 20. -/
theorem c3_counterexample :
    execute_micro_operation c3_machine ⟨Opcode.ROT, none, none⟩ =
      .ok c3_result ∧
    get_tos c3_machine 0 = .ok 30 ∧ get_tos c3_machine 1 = .ok 20 ∧
    get_tos c3_machine 2 = .ok 10 ∧
    get_tos c3_result 0 = .ok 10 ∧ get_tos c3_result 1 = .ok 30 ∧
    get_tos c3_result 2 = .ok 20 ∧ (10 : Int) ≠ 20 :=
  ⟨rfl, rfl, rfl, rfl, rfl, rfl, rfl, by decide⟩

/-- C3 (amended): executing ROT on an operand stack of depth at least 3
makes the new top equal to the old third-from-top, the new second-from-top
equal to the old top, and the new third-from-top equal to the old
second-from-top, with total stack depth unchanged and exactly 1 tick
elapsed. -/
theorem c3_rotate (m : Machine) (i : Instr) (m' : Machine) (a b c : Int)
    (hop : i.opcode = Opcode.ROT)
    (h2 : get_tos m 2 = .ok a) (h1 : get_tos m 1 = .ok b)
    (h0 : get_tos m 0 = .ok c)
    (hex : execute_micro_operation m i = .ok m') :
    m'.head = m.head ∧ get_tos m' 0 = .ok a ∧ get_tos m' 1 = .ok c ∧
      get_tos m' 2 = .ok b ∧ m'.ticks = m.ticks + 1 := by
  simp only [execute_micro_operation, hop] at hex
  obtain ⟨a', b', c', ha', hb', hc', hd3, hhd, hl1, hl2, hl3, rfl⟩ :=
    micro_rotate_ok hex
  rw [h2] at ha'
  rw [h1] at hb'
  rw [h0] at hc'
  injection ha' with ha'
  injection hb' with hb'
  injection hc' with hc'
  subst ha'
  subst hb'
  subst hc'
  refine ⟨by dsimp only; omega, ?_, ?_, ?_, by dsimp only⟩
  · refine get_tos_of_stack (by norm_num) (by norm_num) (by dsimp only; omega) ?_
    dsimp only
    have he : m.head + -3 + 1 + 1 + 1 - 0 - 1 = m.head + -3 + 1 + 1 := by ring
    rw [he]
    exact List.get?_set_eq_of_lt a (by simpa [List.length_set] using hl3)
  · refine get_tos_of_stack (by norm_num) (by norm_num) (by dsimp only; omega) ?_
    dsimp only
    have he : m.head + -3 + 1 + 1 + 1 - 1 - 1 = m.head + -3 + 1 := by ring
    rw [he]
    rw [List.get?_set_ne a _ (by omega)]
    exact List.get?_set_eq_of_lt c (by simpa [List.length_set] using hl2)
  · refine get_tos_of_stack (by norm_num) (by norm_num) (by dsimp only; omega) ?_
    dsimp only
    have he : m.head + -3 + 1 + 1 + 1 - 2 - 1 = m.head + -3 := by ring
    rw [he]
    rw [List.get?_set_ne a _ (by omega)]
    rw [List.get?_set_ne c _ (by omega)]
    exact List.get?_set_eq_of_lt b hl1

/-- Witness for the amended C3 at the concrete machine. -/
theorem c3_rotate_witness :
    execute_micro_operation c3_machine ⟨Opcode.ROT, none, none⟩ =
      .ok c3_result ∧
    c3_result.head = c3_machine.head ∧ get_tos c3_result 0 = .ok 10 ∧
    get_tos c3_result 1 = .ok 30 ∧ get_tos c3_result 2 = .ok 20 ∧
    c3_result.ticks = c3_machine.ticks + 1 :=
  ⟨rfl,
   (c3_rotate c3_machine ⟨Opcode.ROT, none, none⟩ c3_result 10 20 30 rfl
      rfl rfl rfl rfl).1,
   (c3_rotate c3_machine ⟨Opcode.ROT, none, none⟩ c3_result 10 20 30 rfl
      rfl rfl rfl rfl).2.1,
   (c3_rotate c3_machine ⟨Opcode.ROT, none, none⟩ c3_result 10 20 30 rfl
      rfl rfl rfl rfl).2.2.1,
   (c3_rotate c3_machine ⟨Opcode.ROT, none, none⟩ c3_result 10 20 30 rfl
      rfl rfl rfl rfl).2.2.2.1,
   (c3_rotate c3_machine ⟨Opcode.ROT, none, none⟩ c3_result 10 20 30 rfl
      rfl rfl rfl rfl).2.2.2.2⟩

/-- C4: executing INVERT on an operand stack of depth at least 1 latches
the ALU result -(top(0)+1), pops exactly one operand, and pushes the
result, so the net stack depth is unchanged and every element below the
old top is preserved; 2 ticks elapse. -/
theorem c4_invert (m : Machine) (i : Instr) (m' : Machine) (t0 : Int)
    (hop : i.opcode = Opcode.INV)
    (h0 : get_tos m 0 = .ok t0)
    (hex : execute_micro_operation m i = .ok m') :
    m'.alu = -(t0 + 1) ∧ m'.head = m.head ∧
      get_tos m' 0 = .ok (-(t0 + 1)) ∧
      (∀ k : Nat, k + 1 < m.head.toNat → m'.stack.get? k = m.stack.get? k) ∧
      m'.ticks = m.ticks + 2 := by
  simp only [execute_micro_operation, hop] at hex
  obtain ⟨t0', ht0', hb1, hl, rfl⟩ := micro_alu_inv_ok hop hex
  rw [h0] at ht0'
  injection ht0' with ht0'
  subst ht0'
  obtain ⟨-, -, hpos, -⟩ := get_tos_ok h0
  have hval : (t0 + 1) * (-1) = -(t0 + 1) := by ring
  refine ⟨by dsimp only; rw [hval], by dsimp only; omega, ?_, ?_, by dsimp only⟩
  · refine get_tos_of_stack (by norm_num) (by norm_num) (by dsimp only; omega) ?_
    dsimp only
    have he : m.head + -1 + 1 - 0 - 1 = m.head + -1 := by ring
    rw [he, ← hval]
    exact List.get?_set_eq_of_lt ((t0 + 1) * (-1)) hl
  · intro k hk
    dsimp only
    exact List.get?_set_ne ((t0 + 1) * (-1)) m.stack (by omega)

def c4_machine : Machine :=
  ⟨0, 4, [Cell.int 0], 0, 0, [], [],
   (List.replicate 8 0).set 0 5, 1, 8, 0, 0, 0⟩

def c4_result : Machine :=
  okOr (execute_micro_operation c4_machine ⟨Opcode.INV, none, none⟩)
    dflt_machine

/-- Witness for C4 at a concrete machine with 5 on top. -/
theorem c4_invert_witness :
    execute_micro_operation c4_machine ⟨Opcode.INV, none, none⟩ =
      .ok c4_result ∧
    c4_result.alu = -(5 + 1) ∧ c4_result.head = c4_machine.head ∧
    get_tos c4_result 0 = .ok (-(5 + 1)) ∧
    c4_result.ticks = c4_machine.ticks + 2 :=
  ⟨rfl,
   (c4_invert c4_machine ⟨Opcode.INV, none, none⟩ c4_result 5 rfl rfl rfl).1,
   (c4_invert c4_machine ⟨Opcode.INV, none, none⟩ c4_result 5 rfl rfl rfl).2.1,
   (c4_invert c4_machine ⟨Opcode.INV, none, none⟩ c4_result 5 rfl rfl rfl).2.2.1,
   (c4_invert c4_machine ⟨Opcode.INV, none, none⟩ c4_result 5 rfl rfl
      rfl).2.2.2.2⟩

/-- C5 fails on the code: MINUS and PRINT are declared opcodes with no
entry in the handlers dict of execute_micro_operation, so the lookup
returns None and the dispatch falls through, returning with the machine
state untouched: no tick advance, no pc latch.  The no-handler
fall-through is therefore reachable, and these non-HALT instructions
execute without advancing the tick counter. -/
theorem c5_counterexample :
    execute_micro_operation dflt_machine ⟨Opcode.MINUS, none, none⟩ =
      .ok dflt_machine ∧
    execute_micro_operation dflt_machine ⟨Opcode.PRINT, none, none⟩ =
      .ok dflt_machine ∧
    Opcode.MINUS ≠ Opcode.HALT ∧ Opcode.PRINT ≠ Opcode.HALT :=
  ⟨rfl, rfl, by decide, by decide⟩

/-- C5 (amended): every opcode except MINUS and PRINT dispatches to a
defined micro-operation, and executing any such instruction that returns
normally (so not HALT, which raises) strictly advances the tick counter
and latches the program counter: the new pc is pc+1, or the numeric
argument of the executed instruction (JMP), or the numeric argument of
the JMP/JNT instruction fetched at the current pc (JNT's branch path);
a MINUS or PRINT instruction falls through the dispatch with the machine
state entirely unchanged. -/
theorem c5_dispatch_ticks :
    (∀ (m : Machine) (i : Instr) (m' : Machine),
        i.opcode ≠ Opcode.MINUS → i.opcode ≠ Opcode.PRINT →
        execute_micro_operation m i = .ok m' →
        m.ticks < m'.ticks ∧
          (m'.pc = m.pc + 1 ∨
           (∃ n, i.arg = some (Arg.num n) ∧ m'.pc = n) ∨
           (∃ c n, get_instruction m m.pc = .ok (Cell.instr c) ∧
              c.arg = some (Arg.num n) ∧ m'.pc = n))) ∧
    (∀ (m : Machine) (i : Instr),
        (i.opcode = Opcode.MINUS ∨ i.opcode = Opcode.PRINT) →
        execute_micro_operation m i = .ok m) := by
  constructor
  · intro m i m' hm hp hex
    unfold execute_micro_operation at hex
    cases hop : i.opcode <;> rw [hop] at hex
    case READ_DIR =>
      obtain ⟨htk, -, -, -, -, hpc⟩ := micro_read_direct_ok hex
      exact ⟨by omega, Or.inl hpc⟩
    case READ_NDR =>
      obtain ⟨htk, -, -, -, -, hpc⟩ := micro_read_indirect_ok hex
      exact ⟨by omega, Or.inl hpc⟩
    case WR_DIR =>
      obtain ⟨htk, -, -, -, -, hpc⟩ := micro_write_direct_ok hex
      exact ⟨by omega, Or.inl hpc⟩
    case WR_NDR =>
      obtain ⟨htk, -, -, -, -, hpc⟩ := micro_write_indirect_ok hex
      exact ⟨by omega, Or.inl hpc⟩
    case JNT =>
      obtain ⟨t, -, -, -, -, -, -, htk, hpc⟩ := micro_jump_if_not_true_ok hex
      refine ⟨by omega, ?_⟩
      rcases hpc with hpc | ⟨c, n, hci, -, hcarg, hpc⟩
      · exact Or.inl hpc
      · exact Or.inr (Or.inr ⟨c, n, hci, hcarg, hpc⟩)
    case HALT => exact absurd hex (by simp [micro_halt])
    case BEGIN =>
      have hr := micro_no_operation_ok hex
      subst hr
      exact ⟨by dsimp only; omega, Or.inl rfl⟩
    case NOP =>
      have hr := micro_no_operation_ok hex
      subst hr
      exact ⟨by dsimp only; omega, Or.inl rfl⟩
    case MOD =>
      obtain ⟨htk, -, -, -, -, hpc⟩ := micro_alu_operation_ok hex
      exact ⟨by omega, Or.inl hpc⟩
    case PLUS =>
      obtain ⟨htk, -, -, -, -, hpc⟩ := micro_alu_operation_ok hex
      exact ⟨by omega, Or.inl hpc⟩
    case MULT =>
      obtain ⟨htk, -, -, -, -, hpc⟩ := micro_alu_operation_ok hex
      exact ⟨by omega, Or.inl hpc⟩
    case LT =>
      obtain ⟨htk, -, -, -, -, hpc⟩ := micro_alu_operation_ok hex
      exact ⟨by omega, Or.inl hpc⟩
    case DIV =>
      obtain ⟨htk, -, -, -, -, hpc⟩ := micro_alu_operation_ok hex
      exact ⟨by omega, Or.inl hpc⟩
    case POW =>
      obtain ⟨htk, -, -, -, -, hpc⟩ := micro_alu_operation_ok hex
      exact ⟨by omega, Or.inl hpc⟩
    case NEG =>
      obtain ⟨htk, -, -, -, -, hpc⟩ := micro_alu_operation_ok hex
      exact ⟨by omega, Or.inl hpc⟩
    case INV =>
      obtain ⟨htk, -, -, -, -, hpc⟩ := micro_alu_operation_ok hex
      exact ⟨by omega, Or.inl hpc⟩
    case ROT =>
      obtain ⟨a, b, c, -, -, -, -, -, -, -, -, rfl⟩ := micro_rotate_ok hex
      exact ⟨by dsimp only; omega, Or.inl rfl⟩
    case DUP =>
      obtain ⟨v, -, -, -, -, rfl⟩ := micro_duplicate_ok hex
      exact ⟨by dsimp only; omega, Or.inl rfl⟩
    case OVER =>
      obtain ⟨v, -, -, -, -, rfl⟩ := micro_over_ok hex
      exact ⟨by dsimp only; omega, Or.inl rfl⟩
    case SWAP =>
      obtain ⟨v1, v2, -, -, -, -, rfl⟩ := micro_swap_ok hex
      exact ⟨by dsimp only; omega, Or.inl rfl⟩
    case PUSH =>
      obtain ⟨v, -, -, -, -, rfl⟩ := micro_push_ok hex
      exact ⟨by dsimp only; omega, Or.inl rfl⟩
    case DROP =>
      obtain ⟨-, -, rfl⟩ := micro_drop_ok hex
      exact ⟨by dsimp only; omega, Or.inl rfl⟩
    case JMP =>
      obtain ⟨n, hn, rfl⟩ := micro_jump_ok hex
      exact ⟨by dsimp only; omega, Or.inr (Or.inl ⟨n, hn, rfl⟩)⟩
    case MINUS => exact absurd hop hm
    case PRINT => exact absurd hop hp
  · intro m i hi
    rcases hi with hi | hi <;>
      simp only [execute_micro_operation, hi]

def c5_result : Machine :=
  okOr (execute_micro_operation dflt_machine ⟨Opcode.NOP, none, none⟩)
    dflt_machine

/-- Witness for the amended C5: a concrete NOP execution advances the
ticks and latches pc+1; a concrete MINUS execution returns the state
unchanged. -/
theorem c5_dispatch_ticks_witness :
    execute_micro_operation dflt_machine ⟨Opcode.NOP, none, none⟩ =
      .ok c5_result ∧
    dflt_machine.ticks < c5_result.ticks ∧
    (c5_result.pc = dflt_machine.pc + 1 ∨
     (∃ n, (⟨Opcode.NOP, none, none⟩ : Instr).arg = some (Arg.num n) ∧
        c5_result.pc = n) ∨
     (∃ c n, get_instruction dflt_machine dflt_machine.pc =
          .ok (Cell.instr c) ∧ c.arg = some (Arg.num n) ∧
        c5_result.pc = n)) ∧
    execute_micro_operation dflt_machine ⟨Opcode.MINUS, none, none⟩ =
      .ok dflt_machine :=
  ⟨rfl,
   (c5_dispatch_ticks.1 dflt_machine ⟨Opcode.NOP, none, none⟩ c5_result
      (by decide) (by decide) rfl).1,
   (c5_dispatch_ticks.1 dflt_machine ⟨Opcode.NOP, none, none⟩ c5_result
      (by decide) (by decide) rfl).2,
   c5_dispatch_ticks.2 dflt_machine ⟨Opcode.MINUS, none, none⟩ (Or.inl rfl)⟩

def c6_code : List Instr := [⟨Opcode.HALT, none, none⟩]

/-- C6 is a code bug: the encode/decode round trip fails whenever the data
segment is empty.  write_code then writes only the instruction array;
read_code reads the whole file into `full` and, "data" not occurring in
the text, takes the else branch, which calls json.loads(file.read()) on
the already-exhausted handle: parsing the empty string raises
JSONDecodeError — and the local name `data` is never bound on that path,
so even a successful parse would raise NameError at `return code, data`.
For contrast, the same pair with a non-empty data segment round-trips. -/
theorem c6_roundtrip_empty_data :
    read_code (write_code c6_code []) = .error .err ∧
    read_code (write_code c6_code [5, -3]) = .ok (c6_code, [5, -3]) :=
  ⟨rfl, rfl⟩

/-- C7: in every reachable (non-aborted) state of a run built by
`simulation`, the operand-stack head satisfies 0 <= head < 256, and
top(offset) fails — rather than returning a slot — for every offset at or
beyond head. -/
theorem c7_stack_safety (code : List Instr) (dms : Nat) (input : List Char)
    (data : List Int) (m0 m : Machine)
    (hinit : simulation_init code dms input data = .ok m0)
    (hreach : reachable m0 m) :
    0 ≤ m.head ∧ m.head < 256 ∧
      ∀ off : Int, m.head ≤ off → get_tos m off = .error .err := by
  have h0 : stack_inv m0 ∧ m0.stack_size = 256 := by
    unfold simulation_init at hinit
    split at hinit
    · injection hinit with h'
      subst h'
      exact ⟨⟨by norm_num, by norm_num, by rw [List.length_replicate]⟩, rfl⟩
    · exact absurd hinit (by simp)
  obtain ⟨hinv, hsz⟩ := h0
  obtain ⟨⟨g1, g2, g3⟩, g4⟩ := reachable_inv hreach hinv
  refine ⟨g1, ?_, fun off hoff => get_tos_underflow hoff⟩
  rw [g4, hsz] at g2
  exact_mod_cast g2

def c7_machine : Machine :=
  okOr (simulation_init [⟨Opcode.HALT, none, none⟩] 130 [] []) dflt_machine

/-- Witness for C7 at the initial state of a concrete run. -/
theorem c7_stack_safety_witness :
    simulation_init [⟨Opcode.HALT, none, none⟩] 130 [] [] =
      .ok c7_machine ∧
    0 ≤ c7_machine.head ∧ c7_machine.head < 256 :=
  ⟨rfl,
   (c7_stack_safety [⟨Opcode.HALT, none, none⟩] 130 [] [] c7_machine
      c7_machine rfl (reachable.refl c7_machine)).1,
   (c7_stack_safety [⟨Opcode.HALT, none, none⟩] 130 [] [] c7_machine
      c7_machine rfl (reachable.refl c7_machine)).2.1⟩

/-- C8: executing POW on an operand stack of depth at least 2 with top t0
and second-from-top t1 pops both and pushes t0 ** t1 (base = stack top,
exponent = second-from-top), in exactly 2 ticks.  A successful execution
entails 0 <= t1: with a negative exponent the Python result leaves the
integer domain (a float, or ZeroDivisionError for base 0), which the
integer datapath model treats as an abort. -/
theorem c8_pow (m : Machine) (i : Instr) (m' : Machine) (t0 t1 : Int)
    (hop : i.opcode = Opcode.POW)
    (h0 : get_tos m 0 = .ok t0) (h1 : get_tos m 1 = .ok t1)
    (hex : execute_micro_operation m i = .ok m') :
    0 ≤ t1 ∧ m'.head = m.head - 1 ∧
      get_tos m' 0 = .ok (t0 ^ t1.toNat) ∧ m'.ticks = m.ticks + 2 := by
  simp only [execute_micro_operation, hop] at hex
  obtain ⟨t0', t1', ht0', ht1', hle, hb1, hl, rfl⟩ := micro_alu_pow_ok hop hex
  rw [h0] at ht0'
  rw [h1] at ht1'
  injection ht0' with ht0'
  injection ht1' with ht1'
  subst ht0'
  subst ht1'
  obtain ⟨-, -, hpos, -⟩ := get_tos_ok h1
  refine ⟨hle, by dsimp only; omega, ?_, by dsimp only⟩
  refine get_tos_of_stack (by norm_num) (by norm_num) (by dsimp only; omega) ?_
  dsimp only
  have he : m.head + -2 + 1 - 0 - 1 = m.head + -2 := by ring
  rw [he]
  exact List.get?_set_eq_of_lt (t0 ^ t1.toNat) hl

def c8_machine : Machine :=
  ⟨0, 4, [Cell.int 0], 0, 0, [], [],
   (((List.replicate 8 0).set 0 7).set 1 3).set 2 2, 3, 8, 0, 0, 0⟩

def c8_result : Machine :=
  okOr (execute_micro_operation c8_machine ⟨Opcode.POW, none, none⟩)
    dflt_machine

/-- Witness for C8 with top 2, second 3: pushes 2 ** 3 = 8. -/
theorem c8_pow_witness :
    execute_micro_operation c8_machine ⟨Opcode.POW, none, none⟩ =
      .ok c8_result ∧
    c8_result.head = c8_machine.head - 1 ∧
    get_tos c8_result 0 = .ok ((2 : Int) ^ (3 : Int).toNat) ∧
    c8_result.ticks = c8_machine.ticks + 2 ∧
    (2 : Int) ^ (3 : Int).toNat = 8 :=
  ⟨rfl,
   (c8_pow c8_machine ⟨Opcode.POW, none, none⟩ c8_result 2 3 rfl rfl rfl
      rfl).2.1,
   (c8_pow c8_machine ⟨Opcode.POW, none, none⟩ c8_result 2 3 rfl rfl rfl
      rfl).2.2.1,
   (c8_pow c8_machine ⟨Opcode.POW, none, none⟩ c8_result 2 3 rfl rfl rfl
      rfl).2.2.2,
   by decide⟩

/-- C9 fails on the code as universally stated: a program that never
reaches HALT and never reads from an empty input queue can still abort the
whole simulation through an internal assertion failure.  The
one-instruction program [DROP], run on the initially empty stack with
ceiling 100, underflows latch_head at the first instruction; simulation
only catches StopIteration, so the AssertionError propagates and no
(output, 100) result is returned. -/
theorem c9_counterexample :
    simulation [⟨Opcode.DROP, none, none⟩] 130 100 [] [] =
      .error .err := rfl

/-- C9 (amended): for every program whose first N executed instructions
all complete successfully (never reaching HALT, never reading an empty
input queue, and never failing an internal assertion — for example an
unconditional self-jump), simulation with instruction ceiling N returns
the output accumulated so far and an instructions-retired count exactly
equal to N. -/
theorem c9_ceiling (code : List Instr) (dms limit : Nat)
    (input : List Char) (data : List Int) (m0 mF : Machine)
    (hinit : simulation_init code dms input data = .ok m0)
    (hsteps : step_iter limit m0 = .ok mF) :
    simulation code dms limit input data =
      .ok (mF.output_buffer, limit, mF.ticks) := by
  unfold simulation
  rw [hinit]
  have hs := sim_loop_of_steps limit m0 mF 0 hsteps
  show Except.bind (Except.ok m0) _ = _
  rw [Except.bind]
  dsimp only
  rw [hs]
  show Except.bind (Except.ok (mF, 0 + limit)) _ = _
  rw [Except.bind]
  dsimp only
  rw [Nat.zero_add]
  rfl

def c9_code : List Instr := [⟨Opcode.JMP, some (Arg.num 0), none⟩]

def c9_m0 : Machine := okOr (simulation_init c9_code 130 [] []) dflt_machine

def c9_mf : Machine := okOr (step_iter 2 c9_m0) dflt_machine

/-- Witness for the amended C9: a self-jump run with ceiling 2. -/
theorem c9_ceiling_witness :
    simulation_init c9_code 130 [] [] = .ok c9_m0 ∧
    step_iter 2 c9_m0 = .ok c9_mf ∧
    simulation c9_code 130 2 [] [] = .ok (c9_mf.output_buffer, 2, c9_mf.ticks) :=
  ⟨rfl, rfl, c9_ceiling c9_code 130 2 [] [] c9_m0 c9_mf rfl rfl⟩

/-- C10: executing DIV on an operand stack of depth at least 2 pops two
operands, takes 2 ticks, and pushes the current content of the ALU
accumulator — the value latched by the most recently executed ALU
operation, or 0 if none has occurred (DataPath.__init__ sets alu to 0) —
so the pushed value is independent of the two popped operands. -/
theorem c10_div :
    (∀ (m : Machine) (i : Instr) (m' : Machine), i.opcode = Opcode.DIV →
        execute_micro_operation m i = .ok m' →
        m'.alu = m.alu ∧ m'.head = m.head - 1 ∧
          get_tos m' 0 = .ok m.alu ∧ m'.ticks = m.ticks + 2) ∧
    (∀ (code : List Instr) (dms : Nat) (input : List Char)
        (data : List Int) (m0 : Machine),
        simulation_init code dms input data = .ok m0 → m0.alu = 0) := by
  constructor
  · intro m i m' hop hex
    simp only [execute_micro_operation, hop] at hex
    obtain ⟨hb1, hl, rfl⟩ := micro_alu_div_ok hop hex
    refine ⟨by dsimp only, by dsimp only; omega, ?_, by dsimp only⟩
    refine get_tos_of_stack (by norm_num) (by norm_num) (by dsimp only; omega) ?_
    dsimp only
    have he : m.head + -2 + 1 - 0 - 1 = m.head + -2 := by ring
    rw [he]
    exact List.get?_set_eq_of_lt m.alu hl
  · intro code dms input data m0 hinit
    unfold simulation_init at hinit
    split at hinit
    · injection hinit with h'
      rw [← h']
    · exact absurd hinit (by simp)

def c10_machine : Machine :=
  ⟨0, 4, [Cell.int 0], 0, 0, [], [],
   ((List.replicate 8 0).set 0 4).set 1 9, 2, 8, 77, 0, 0⟩

def c10_result : Machine :=
  okOr (execute_micro_operation c10_machine ⟨Opcode.DIV, none, none⟩)
    dflt_machine

def c10_init : Machine :=
  okOr (simulation_init [⟨Opcode.HALT, none, none⟩] 130 [] []) dflt_machine

/-- Witness for C10: DIV on operands 4, 9 with a stale accumulator 77
pushes 77; a freshly built machine has accumulator 0. -/
theorem c10_div_witness :
    execute_micro_operation c10_machine ⟨Opcode.DIV, none, none⟩ =
      .ok c10_result ∧
    c10_result.alu = c10_machine.alu ∧
    get_tos c10_result 0 = .ok c10_machine.alu ∧
    c10_result.ticks = c10_machine.ticks + 2 ∧
    c10_machine.alu = 77 ∧
    simulation_init [⟨Opcode.HALT, none, none⟩] 130 [] [] = .ok c10_init ∧
    c10_init.alu = 0 :=
  ⟨rfl,
   (c10_div.1 c10_machine ⟨Opcode.DIV, none, none⟩ c10_result rfl rfl).1,
   (c10_div.1 c10_machine ⟨Opcode.DIV, none, none⟩ c10_result rfl rfl).2.2.1,
   (c10_div.1 c10_machine ⟨Opcode.DIV, none, none⟩ c10_result rfl rfl).2.2.2,
   rfl, rfl,
   c10_div.2 [⟨Opcode.HALT, none, none⟩] 130 [] [] c10_init rfl⟩

end PainScript
